import Mathlib

/-!
Verification of the tileset-manifest engine (tileset_manifest.py, geo.py).

The Python code manipulates raw JSON values (dicts produced by json.loads),
numpy 4x4 matrices, and filesystem paths.  We embed:
  * JSON values as the inductive type `J`, with numbers as exact rationals;
  * numpy 4x4 float matrices as `Matrix (Fin 4) (Fin 4) Q` with exact
    rational arithmetic (float rounding is below the abstraction level of
    the structural claims);
  * the filesystem and OS path resolution as an explicit environment `Env`
    (`Path.resolve`/`expanduser` are OS operations, modelled as an opaque
    resolution function supplied by the environment);
  * Python exceptions as `Except Err`;
  * the generator `walk_tileset` fused with its sole consumer
    `build_manifest` (Python generator semantics interleave the two) as a
    fuel-indexed step machine on `BState`;
  * the real-valued WGS84 geodesy of geo.py over `Real`.
-/

namespace T3

/-- String-literal constants used throughout (JSON keys, suffixes, tags). -/
def kTransform : String := "transform"

def kChildren : String := "children"

def kContent : String := "content"

def kContents : String := "contents"

def kUri : String := "uri"

def kUrl : String := "url"

def kRoot : String := "root"

def kBoundingVolume : String := "boundingVolume"

def kRegion : String := "region"

def kSphere : String := "sphere"

def kBox : String := "box"

def tagRegion : String := "region"

def tagSphere : String := "sphere"

def tagBox : String := "box"

def tagRoot : String := "root"

def sJson : String := ".json"

def sB3dm : String := ".b3dm"

def sTilesetJson : String := "tileset.json"

def sGlb : String := ".glb"

def slash : String := "/"

def qmark : String := "?"

def hashS : String := "#"

def emptyS : String := ""

def tileStem : String := "tile_"

def tileIdZero : String := "tile_000000"

def dotChar : Char := '.'

def zeroChar : Char := '0'

def qChar : Char := '?'

def hashChar : Char := '#'

def slashChar : Char := '/'

/-- ASCII lowercasing of one character (`Char.toLower` / `str.lower` on the
ASCII range, which is all these URIs and suffixes use). -/
def lowerChar (c : Char) : Char :=
  if 65 ≤ c.toNat ∧ c.toNat ≤ 90 then Char.ofNat (c.toNat + 32) else c

/-- `str.lower()` over the string's characters. -/
def lowerStr (s : String) : String :=
  String.mk (s.toList.map lowerChar)

/-- Whether the first list is an elementwise initial segment of the second. -/
def isPrefAux : List Char → List Char → Bool
  | [], _ => true
  | _ :: _, [] => false
  | a :: as, b :: bs => if a = b then isPrefAux as bs else false

/-- `str.endswith(suf)`. -/
def endsWithL (s suf : String) : Bool :=
  isPrefAux suf.toList.reverse s.toList.reverse

/-- Split a character list on a one-character separator (`str.split(sep)`
for the single-character separators used by the source). -/
def splitOnChar (sep : Char) : List Char → List (List Char)
  | [] => [[]]
  | c :: cs =>
    let r := splitOnChar sep cs
    if c = sep then [] :: r
    else
      match r with
      | [] => [[c]]
      | h :: t => (c :: h) :: t

/-- JSON values as produced by `json.loads`: `null`/`None`, booleans,
numbers (modelled as exact rationals), strings, arrays and objects. -/
inductive J where
  | null : J
  | bool (b : Bool) : J
  | num (q : ℚ) : J
  | str (s : String) : J
  | arr (elems : List J) : J
  | obj (fields : List (String × J)) : J

/-- First-match association-list lookup for JSON object fields. -/
def jLookup : List (String × J) → String → Option J
  | [], _ => none
  | (k, v) :: rest, key => if k = key then some v else jLookup rest key

/-- Python `d.get(key)` on a parsed JSON value: returns `None` both when the
key is missing and when the stored value is JSON `null`; on non-dicts the
code never calls `.get`, modelled as `null`. -/
def pyGet (t : J) (key : String) : J :=
  match t with
  | .obj fs =>
    match jLookup fs key with
    | some v => v
    | none => .null
  | _ => .null

/-- Python truthiness of a parsed JSON value (`if not transform`, `uri or url`,
`children or []`): `None`, `False`, `0`, `""`, `[]`, `{}` are falsy. -/
def truthy : J → Bool
  | .null => false
  | .bool b => b
  | .num q => if q = 0 then false else true
  | .str s => if s = emptyS then false else true
  | .arr l => !l.isEmpty
  | .obj l => !l.isEmpty

/-- Whether a JSON value is an object (`isinstance(x, dict)`). -/
def J.isObj : J → Bool
  | .obj _ => true
  | _ => false

/-- The builtin Python `float(v)` coercion, as used by the `float(v)` calls
in `_derive_origin`: numbers pass through, bools become 0/1, strings go
through the (environment-supplied) float parser, and `None`/lists/dicts
raise (modelled as `none`). -/
def pyFloat (pf : String → Option ℚ) : J → Option ℚ
  | .num q => some q
  | .bool b => some (if b then 1 else 0)
  | .str s => pf s
  | _ => none

/-- Coerce a whole JSON list elementwise, failing if any element fails
(the list comprehension `[float(v) for v in region]`). -/
def pyFloatList (pf : String → Option ℚ) : List J → Option (List ℚ)
  | [] => some []
  | x :: xs =>
    match pyFloat pf x with
    | none => none
    | some q =>
      match pyFloatList pf xs with
      | none => none
      | some qs => some (q :: qs)

/-- Error kinds, one per `raise` site of the source (all Python
`ValueError` except `badFloat`, which models the `TypeError`/`ValueError`
raised by a failing `float()` coercion inside numpy/`_derive_origin`);
`fuel` is an artifact of the fuel-indexed embedding of the unbounded loop. -/
inductive Err where
  | invalidJson (path : String) : Err
  | notObject (path : String) : Err
  | missingRoot : Err
  | missingExternalRoot (path : String) : Err
  | badTransform : Err
  | badFloat : Err
  | missingContent (path : String) : Err
  | noTiles : Err
  | fuel : Err
deriving DecidableEq

/-- The environment: filesystem contents, OS path operations, and the
float-coercion corners that have no exact-rational counterpart.
`fs p` is the parsed JSON of the document at path `p` (`none` when the file
is unreadable or not valid JSON); `fileExists` models `Path.exists` for
b3dm payloads; `resolve` models `(base_dir / uri).expanduser().resolve()`;
`parentDir` models `Path.parent`; `parseFloat` models Python `float(str)`
(string parsing, shared with numpy's string coercion); `glbDir` is the
`cache_dir / "glb"` directory as a string; `nan` is the rational standing
in for the float NaN that `np.array(..., dtype=float)` produces from
`None` (NaN has no exact-rational representative; no theorem depends on
this value); `npNested` gives numpy's behaviour on a nested-sequence
element (numpy flattens uniformly singleton nestings to their single
scalar and raises on empty, wider or ragged ones — abstracted as an
environment-supplied per-element coercion). -/
structure Env where
  fs : String → Option J
  fileExists : String → Bool
  resolve : String → String → String
  parentDir : String → String
  parseFloat : String → Option ℚ
  glbDir : String
  nan : ℚ
  npNested : List J → Option ℚ

/-- The elementwise coercion performed by `np.array(transform, dtype=float)`:
numbers and booleans coerce as `float()` does; `None` becomes NaN (the
environment's `nan` surrogate) WITHOUT raising; strings are parsed like
`float()`; nested sequences behave per the environment's `npNested`;
dicts raise. -/
def npFloat (env : Env) : J → Option ℚ
  | .num q => some q
  | .bool b => some (if b then 1 else 0)
  | .null => some env.nan
  | .str s => env.parseFloat s
  | .arr l => env.npNested l
  | .obj _ => none

/-- Coerce a whole transform list elementwise with the numpy coercion,
failing if any element fails. -/
def npFloatList (env : Env) : List J → Option (List ℚ)
  | [] => some []
  | x :: xs =>
    match npFloat env x with
    | none => none
    | some q =>
      match npFloatList env xs with
      | none => none
      | some qs => some (q :: qs)

/-- `_strip_query_fragment`: drop everything from the first "?", then from
the first "#". -/
def strip_query_fragment (uri : String) : String :=
  let s1 := (splitOnChar qChar uri.toList).headD uri.toList
  String.mk ((splitOnChar hashChar s1).headD s1)

/-- `_is_b3dm_uri`: query/fragment-stripped, lowercased URI ends in ".b3dm". -/
def is_b3dm_uri (uri : String) : Bool :=
  endsWithL (lowerStr (strip_query_fragment uri)) sB3dm

/-- `_is_tileset_uri`: stripped, lowercased URI ends in "tileset.json" or ".json". -/
def is_tileset_uri (uri : String) : Bool :=
  endsWithL (lowerStr (strip_query_fragment uri)) sTilesetJson ||
    endsWithL (lowerStr (strip_query_fragment uri)) sJson

/-- Index of the last '.' in a character list (Python `str.rfind('.')`),
`none` when absent. -/
def lastDotIdx : List Char → Option ℕ
  | [] => none
  | c :: cs =>
    match lastDotIdx cs with
    | some i => some (i + 1)
    | none => if c = dotChar then some 0 else none

/-- `PurePath.suffix` of a path string: the extension of the final
component (`name[i:]` for the last dot index `i` with `0 < i < len - 1`);
empty for names whose only dot is leading or trailing. -/
def pathSuffix (p : String) : String :=
  let nm := (splitOnChar slashChar p.toList).getLastD p.toList
  match lastDotIdx nm with
  | some i => if 0 < i ∧ i + 1 < nm.length then String.mk (nm.drop i) else emptyS
  | none => emptyS

/-- numpy 4x4 float matrix. -/
abbrev Mat4 := Matrix (Fin 4) (Fin 4) ℚ

/-- Column-major (order="F") reshape of a 16-element list into a 4x4
matrix: entry (i, j) is element `i + 4*j`. -/
def matFromColMajor (l : List ℚ) : Mat4 :=
  Matrix.of fun i j => l.getD (i.val + 4 * j.val) 0

/-- `_matrix_from_tile`: falsy transform gives the identity; a 16-element
list is coerced elementwise by the numpy coercion (so `None` entries give
NaN rather than raising) and reshaped column-major; anything else raises. -/
def matrix_from_tile (env : Env) (transform : J) : Except Err Mat4 :=
  if truthy transform = false then .ok 1
  else
    match transform with
    | .arr l =>
      if l.length = 16 then
        match npFloatList env l with
        | some qs => .ok (matFromColMajor qs)
        | none => .error .badFloat
      else .error .badTransform
    | _ => .error .badTransform

/-- `_matrix_to_column_major`: read the matrix back out column-major. -/
def matrix_to_column_major (m : Mat4) : List ℚ :=
  [m 0 0, m 1 0, m 2 0, m 3 0,
   m 0 1, m 1 1, m 2 1, m 3 1,
   m 0 2, m 1 2, m 2 2, m 3 2,
   m 0 3, m 1 3, m 2 3, m 3 3]

/-- `_extract_translation`: the translation column of an affine matrix. -/
def extract_translation (m : Mat4) : List ℚ :=
  [m 0 3, m 1 3, m 2 3]

/-- `_extract_content_uris`: the `content` object's `uri or url` string (if
any) followed by the `contents` entries' `uri or url` strings. -/
def contentUriOf (c : J) : Option String :=
  let u := if truthy (pyGet c kUri) then pyGet c kUri else pyGet c kUrl
  match u with
  | .str s => some s
  | _ => none

/-- All content URIs of a tile, in source order. -/
def extract_content_uris (t : J) : List String :=
  (match pyGet t kContent with
   | .obj fs =>
     match contentUriOf (.obj fs) with
     | some s => [s]
     | none => []
   | _ => []) ++
  (match pyGet t kContents with
   | .arr es => es.filterMap fun e => if e.isObj then contentUriOf e else none
   | _ => [])

/-- `_is_leaf_tile`: children absent/null, or present and the empty list. -/
def is_leaf_tile (t : J) : Bool :=
  match pyGet t kChildren with
  | .null => true
  | .arr [] => true
  | _ => false

/-- The generator's `tile.get("children") or []` followed by the
`isinstance(children, list)` guard: the list of child values to push. -/
def childListOf (t : J) : List J :=
  let c := pyGet t kChildren
  let c2 := if truthy c then c else J.arr []
  match c2 with
  | .arr xs => xs
  | _ => []

/-- Zero-padded decimal of width 6 (Python format spec `06d`; wider numbers
are printed unpadded). -/
def pad6 (n : ℕ) : String :=
  let s := toString n
  String.mk (List.replicate (6 - s.length) zeroChar) ++ s

/-- Tile identifier for counter value `n`: `tile_` ++ zero-padded `n`. -/
def tileId (n : ℕ) : String :=
  tileStem ++ pad6 n

/-- A stack frame of `walk_tileset`: assigned id, the tile value, the
parent's absolute transform, and the directory for resolving its URIs. -/
structure Frame where
  id : String
  tile : J
  parent : Mat4
  base : String

/-- One entry of the manifest's `tiles` list. -/
structure TileRecord where
  tile_id : String
  b3dm_path : String
  glb_path : String
  transform_ecef : List ℚ
  boundingVolume : J

/-- The manifest record appended for a leaf b3dm content. -/
def mkRecord (env : Env) (tid : String) (t : J) (b3dm : String) (full : Mat4) : TileRecord :=
  { tile_id := tid
    b3dm_path := b3dm
    glb_path := env.glbDir ++ slash ++ tid ++ sGlb
    transform_ecef := matrix_to_column_major full
    boundingVolume := pyGet t kBoundingVolume }

/-- `_TileWalker.queue_external_tileset`: drop paths whose `Path.suffix`
(lowercased) is not ".json", otherwise append to the pending queue.  Python
appends to the end of the list and `pop()`s from the end; we model the queue
as a cons-list whose head is the most recently queued entry. -/
def queue_external_tileset (p : String) (m : Mat4) (q : List (String × Mat4)) :
    List (String × Mat4) :=
  if lowerStr (pathSuffix p) = sJson then (p, m) :: q else q

/-- The consumer side of `build_manifest`'s loop body for one yielded leaf
tile: iterate its content URIs in order; tileset URIs are resolved and
queued; b3dm URIs are resolved, must exist, and append a record; other URIs
are skipped. -/
def processUris (env : Env) (tid : String) (t : J) (base : String) (full : Mat4) :
    List String → List TileRecord × List (String × Mat4) →
    Except Err (List TileRecord × List (String × Mat4))
  | [], acc => .ok acc
  | uri :: rest, (recs, q) =>
    if is_tileset_uri uri then
      let p := env.resolve base (strip_query_fragment uri)
      processUris env tid t base full rest (recs, queue_external_tileset p full q)
    else if is_b3dm_uri uri = false then
      processUris env tid t base full rest (recs, q)
    else
      let p := env.resolve base (strip_query_fragment uri)
      if env.fileExists p then
        processUris env tid t base full rest (recs ++ [mkRecord env tid t p full], q)
      else .error (.missingContent p)

/-- `_load_tileset`: read and parse the document at `p`; unreadable or
invalid JSON raises, and so does a payload that is not a JSON object. -/
def load_tileset (env : Env) (p : String) : Except Err J :=
  match env.fs p with
  | none => .error (.invalidJson p)
  | some d => if d.isObj then .ok d else .error (.notObject p)

/-- The child frames pushed after a yield: children are pushed in reversed
order (so the first child ends on top of the stack), the counter is
incremented once per dict child, and non-dict children are skipped.  The
resulting list is in stack order (head = top = first child). -/
def childFrames (children : List J) (k : ℕ) (full : Mat4) (base : String) :
    List Frame × ℕ :=
  match children with
  | [] => ([], k)
  | c :: rest =>
    let (fs, k1) := childFrames rest k full base
    if c.isObj then (⟨tileId (k1 + 1), c, full, base⟩ :: fs, k1 + 1) else (fs, k1)

/-- The `while self._queued_tilesets` drain loop: pop each queued reference
(most recent first); skip already-visited resolved paths; otherwise mark
visited, load the document (recording the load in the I/O trace), require a
dict root, and push the external root onto the main stack with a fresh id,
the carried parent transform, and the document's own directory. -/
def drain (env : Env) :
    List (String × Mat4) → List String → List Frame → ℕ → List String →
    Except Err (List String × List Frame × ℕ × List String)
  | [], visited, stack, k, loads => .ok (visited, stack, k, loads)
  | (p, m) :: q, visited, stack, k, loads =>
    if p ∈ visited then drain env q visited stack k loads
    else
      match load_tileset env p with
      | .error e => .error e
      | .ok doc =>
        match pyGet doc kRoot with
        | .obj fs =>
          drain env q (p :: visited)
            (⟨tileId (k + 1), .obj fs, m, env.parentDir p⟩ :: stack) (k + 1)
            (loads ++ [p])
        | _ => .error (.missingExternalRoot p)

/-- The combined state of the walker generator and its consumer loop in
`build_manifest`: the explicit stack, the id counter, the queued external
references, the visited-path set, the accumulated records, the first
yielded transform, the yield trace, and the trace of external-document
loads (the observable I/O effects). -/
structure BState where
  stack : List Frame
  counter : ℕ
  queued : List (String × Mat4)
  visited : List String
  records : List TileRecord
  rootFull : Option Mat4
  yielded : List (String × J × Mat4 × String)
  loads : List String

/-- One full iteration of the fused generator/consumer loop: pop a frame,
parse its local transform, compose the absolute transform, yield, let the
consumer record leaf content and queue external references, push child
frames, then drain the queue onto the stack. -/
def stepBuild (env : Env) (s : BState) : Except Err (Option BState) :=
  match s.stack with
  | [] => .ok none
  | f :: rest =>
    match matrix_from_tile env (pyGet f.tile kTransform) with
    | .error e => .error e
    | .ok localM =>
      match
        (if is_leaf_tile f.tile then
          processUris env f.id f.tile f.base (f.parent * localM) (extract_content_uris f.tile)
            (s.records, s.queued)
        else .ok (s.records, s.queued)) with
      | .error e => .error e
      | .ok (recs, q) =>
        match drain env q s.visited
            ((childFrames (childListOf f.tile) s.counter (f.parent * localM) f.base).1 ++ rest)
            (childFrames (childListOf f.tile) s.counter (f.parent * localM) f.base).2 s.loads with
        | .error e => .error e
        | .ok (visited, stack2, k2, loads) =>
          .ok (some ⟨stack2, k2, [], visited, recs, some (s.rootFull.getD (f.parent * localM)),
            s.yielded ++ [(f.id, f.tile, f.parent * localM, f.base)], loads⟩)

/-- Run the fused loop to completion under a fuel bound; running out of
fuel with a nonempty stack is an embedding artifact error. -/
def runBuild (env : Env) : ℕ → BState → Except Err BState
  | 0, s => if s.stack.isEmpty then .ok s else .error .fuel
  | n + 1, s =>
    match stepBuild env s with
    | .error e => .error e
    | .ok none => .ok s
    | .ok (some s2) => runBuild env n s2

/-- The initial state: the stack is seeded with the root tile, id
`tile_000000`, the identity parent transform, and the root document's
directory. -/
def initState (root : J) (dir : String) : BState :=
  ⟨[⟨tileIdZero, root, 1, dir⟩], 0, [], [], [], none, [], []⟩

noncomputable section

/-- Python `math.hypot`. -/
def hypot (x y : ℝ) : ℝ :=
  Real.sqrt (x * x + y * y)

/-- Python `math.atan2` over the reals (quadrant-correct arctangent;
`atan2 y 0` is `pi/2`, `-pi/2` or `0` depending on the sign of `y`). -/
def atan2 (y x : ℝ) : ℝ :=
  if 0 < x then Real.arctan (y / x)
  else if x < 0 ∧ 0 ≤ y then Real.arctan (y / x) + Real.pi
  else if x < 0 ∧ y < 0 then Real.arctan (y / x) - Real.pi
  else if x = 0 ∧ 0 < y then Real.pi / 2
  else if x = 0 ∧ y < 0 then -(Real.pi / 2)
  else 0

/-- Python `math.degrees`. -/
def degrees (x : ℝ) : ℝ :=
  x * (180 / Real.pi)

/-- Python `math.radians`. -/
def radians (x : ℝ) : ℝ :=
  x * (Real.pi / 180)

/-- `ecef_to_lla_radians` (geo.py): Bowring's closed-form approximation
over WGS84, returning `(lat, lon, alt)` in radians/meters.  The `p == 0`
polar-axis case of the longitude is guarded exactly as in the source. -/
def ecef_to_lla_radians (x y z : ℝ) : ℝ × ℝ × ℝ :=
  let a : ℝ := 6378137.0
  let f : ℝ := 1.0 / 298.257223563
  let b : ℝ := a * (1.0 - f)
  let e2 : ℝ := 1.0 - (b * b) / (a * a)
  let ep2 : ℝ := (a * a - b * b) / (b * b)
  let p := hypot x y
  let lon := if p = 0 then 0 else atan2 y x
  let theta := atan2 (z * a) (p * b)
  let sinT := Real.sin theta
  let cosT := Real.cos theta
  let lat := atan2 (z + ep2 * b * sinT ^ 3) (p - e2 * a * cosT ^ 3)
  let sinLat := Real.sin lat
  let n := a / Real.sqrt (1.0 - e2 * sinLat * sinLat)
  let alt := p / Real.cos lat - n
  (lat, lon, alt)

/-- `ecef_to_lla_degrees`: the degree-returning variant. -/
def ecef_to_lla_degrees (x y z : ℝ) : ℝ × ℝ × ℝ :=
  let r := ecef_to_lla_radians x y z
  (degrees r.1, degrees r.2.1, r.2.2)

/-- `lla_degrees_to_ecef` (geo.py): standard forward ellipsoidal formula,
same WGS84 constants. -/
def lla_degrees_to_ecef (latDeg lonDeg alt : ℝ) : ℝ × ℝ × ℝ :=
  let lat := radians latDeg
  let lon := radians lonDeg
  let a : ℝ := 6378137.0
  let f : ℝ := 1.0 / 298.257223563
  let e2 : ℝ := f * (2.0 - f)
  let sinLat := Real.sin lat
  let cosLat := Real.cos lat
  let sinLon := Real.sin lon
  let cosLon := Real.cos lon
  let n := a / Real.sqrt (1.0 - e2 * sinLat * sinLat)
  ((n + alt) * cosLat * cosLon, (n + alt) * cosLat * sinLon,
    (n * (1.0 - e2) + alt) * sinLat)

/-- The `[x, y, z]` list of `lla_degrees_to_ecef`. -/
def llaToEcefList (lat lon alt : ℝ) : List ℝ :=
  let t := lla_degrees_to_ecef lat lon alt
  [t.1, t.2.1, t.2.2]

/-- The `[lat, lon, alt]` list of `ecef_to_lla_degrees`. -/
def ecefToLlaList (x y z : ℝ) : List ℝ :=
  let t := ecef_to_lla_degrees x y z
  [t.1, t.2.1, t.2.2]

/-- The result triple of `_derive_origin`: `(origin_ecef, origin_lla,
strategy)`. -/
abbrev OriginT := List ℝ × List ℝ × String

/-- The `region` branch of `_derive_origin`: applicable (`some`) when the
`region` entry is a list of exactly 6 values; inside the branch the six
values are coerced (a failing coercion raises), and the point is the
geographic midpoint at minimum height, not transformed by the root
transform. -/
def regionCase (pf : String → Option ℚ) (bv : J) : Option (Except Err OriginT) :=
  match pyGet bv kRegion with
  | .arr [v0, v1, v2, v3, v4, v5] =>
    some
      (match pyFloat pf v0, pyFloat pf v1, pyFloat pf v2, pyFloat pf v3,
          pyFloat pf v4, pyFloat pf v5 with
        | some w, some s, some e, some n, some minH, some _maxH =>
          let lat := degrees (((s : ℝ) + (n : ℝ)) * 0.5)
          let lon := degrees (((w : ℝ) + (e : ℝ)) * 0.5)
          let alt : ℝ := (minH : ℝ)
          .ok (llaToEcefList lat lon alt, [lat, lon, alt], tagRegion)
        | _, _, _, _, _, _ => .error .badFloat)
  | _ => none

/-- The `sphere` branch of `_derive_origin`: applicable when the `sphere`
entry is a list of exactly 4 values; the first three are coerced (the
radius is not), the homogeneous center is transformed by the root's
absolute transform, and the result is converted to geodetic. -/
def sphereCase (pf : String → Option ℚ) (bv : J) (rootFull : Mat4) :
    Option (Except Err OriginT) :=
  match pyGet bv kSphere with
  | .arr [c0, c1, c2, _r] =>
    some
      (match pyFloat pf c0, pyFloat pf c1, pyFloat pf c2 with
        | some x, some y, some z =>
          let e := rootFull.mulVec ![x, y, z, 1]
          let ecef : List ℝ := [((e 0 : ℚ) : ℝ), ((e 1 : ℚ) : ℝ), ((e 2 : ℚ) : ℝ)]
          .ok (ecef, ecefToLlaList ((e 0 : ℚ) : ℝ) ((e 1 : ℚ) : ℝ) ((e 2 : ℚ) : ℝ),
            tagSphere)
        | _, _, _ => .error .badFloat)
  | _ => none

/-- The `box` branch of `_derive_origin`: applicable when the `box` entry
is a list of exactly 12 values; the first three (the center) are coerced,
transformed, and converted to geodetic. -/
def boxCase (pf : String → Option ℚ) (bv : J) (rootFull : Mat4) :
    Option (Except Err OriginT) :=
  match pyGet bv kBox with
  | .arr l =>
    if l.length = 12 then
      some
        (match pyFloat pf (l.getD 0 .null), pyFloat pf (l.getD 1 .null),
            pyFloat pf (l.getD 2 .null) with
          | some x, some y, some z =>
            let e := rootFull.mulVec ![x, y, z, 1]
            let ecef : List ℝ := [((e 0 : ℚ) : ℝ), ((e 1 : ℚ) : ℝ), ((e 2 : ℚ) : ℝ)]
            .ok (ecef, ecefToLlaList ((e 0 : ℚ) : ℝ) ((e 1 : ℚ) : ℝ) ((e 2 : ℚ) : ℝ),
              tagBox)
          | _, _, _ => .error .badFloat)
    else none
  | _ => none

/-- The fallback of `_derive_origin`: the translation component of the
root's absolute transform (`_extract_translation`), converted to geodetic. -/
def rootFallback (rootFull : Mat4) : OriginT :=
  let x : ℝ := (rootFull 0 3 : ℚ)
  let y : ℝ := (rootFull 1 3 : ℚ)
  let z : ℝ := (rootFull 2 3 : ℚ)
  ([x, y, z], ecefToLlaList x y z, tagRoot)

/-- `_derive_origin`: strict priority region, then sphere, then box, then
the root-translation fallback; the branch shape checks
(`isinstance(..., list) and len(...) == k`) decide applicability, and a
branch once entered either succeeds or raises on a failing `float()`
coercion. -/
def derive_origin (env : Env) (root_tile : J) (rootFull : Mat4) :
    Except Err OriginT :=
  if (pyGet root_tile kBoundingVolume).isObj then
    match regionCase env.parseFloat (pyGet root_tile kBoundingVolume) with
    | some r => r
    | none =>
      match sphereCase env.parseFloat (pyGet root_tile kBoundingVolume) rootFull with
      | some r => r
      | none =>
        match boxCase env.parseFloat (pyGet root_tile kBoundingVolume) rootFull with
        | some r => r
        | none => .ok (rootFallback rootFull)
  else .ok (rootFallback rootFull)

/-- The result of `build_manifest` (`ManifestResult` plus the manifest's
`origin` block; the JSON serialization and the write of manifest.json are
filesystem output, out of the embedding's scope). -/
structure BuildResult where
  tiles : List TileRecord
  origin_strategy : String
  origin_ecef : List ℝ
  origin_lla : List ℝ
  tile_count : ℕ
  root_ecef : List ℝ

/-- `build_manifest`: load the root document, require a dict root tile,
run the fused traversal loop, fail with `noTiles` when no tile was ever
yielded (`root_full is None`), derive the origin from the root tile and
the first yielded transform, and assemble the result. -/
def build_manifest (env : Env) (fuel : ℕ) (tileset_path : String) :
    Except Err BuildResult :=
  match load_tileset env tileset_path with
  | .error e => .error e
  | .ok tileset =>
    match pyGet tileset kRoot with
    | .obj rootFs =>
      match runBuild env fuel (initState (.obj rootFs) (env.parentDir tileset_path)) with
      | .error e => .error e
      | .ok final =>
        match final.rootFull with
        | none => .error .noTiles
        | some rf =>
          match derive_origin env (.obj rootFs) rf with
          | .error e => .error e
          | .ok origin =>
            .ok ⟨final.records, origin.2.2, origin.1, origin.2.1,
              final.records.length, origin.1⟩
    | _ => .error .missingRoot

end

/-- An id-less frame: the data of a traversal frame that the pre-order
specification speaks about (tile, parent absolute transform, base dir). -/
structure SFrame where
  tile : J
  parent : Mat4
  base : String

/-- Forget a machine frame's identifier. -/
def Frame.toS (f : Frame) : SFrame :=
  ⟨f.tile, f.parent, f.base⟩

/-- Forget a yield's identifier. -/
def projY (x : String × J × Mat4 × String) : J × Mat4 × String :=
  (x.2.1, x.2.2.1, x.2.2.2)

/-- The id-less frames of a tile's dict children, in document order,
each carrying the tile's absolute transform and base directory. -/
def childSFrames (t : J) (full : Mat4) (b : String) : List SFrame :=
  (childListOf t).filterMap fun c => if c.isObj then some ⟨c, full, b⟩ else none

/-- The id-less counterpart of the drain loop: process the queued external
references most-recent-first, skipping visited paths, accumulating the
pushed root frames (the accumulator ends up in stack order, i.e. original
content order on top). -/
def expandQueue (env : Env) :
    List (String × Mat4) → List String → List SFrame →
    Except Err (List SFrame × List String)
  | [], visited, acc => .ok (acc, visited)
  | (p, m) :: q, visited, acc =>
    if p ∈ visited then expandQueue env q visited acc
    else
      match load_tileset env p with
      | .error e => .error e
      | .ok doc =>
        match pyGet doc kRoot with
        | .obj fs => expandQueue env q (p :: visited) (⟨.obj fs, m, env.parentDir p⟩ :: acc)
        | _ => .error (.missingExternalRoot p)

mutual

/-- Declarative pre-order traversal of a single frame: the frame's tile is
yielded first (with absolute transform parent * local), then the streams
of the external documents freshly referenced by it (in content order),
then the streams of its children (in document order), with the visited set
threaded left to right. -/
inductive Visit : Env → SFrame → List String → List String → List (J × Mat4 × String) → Prop where
  | mk : ∀ env t m b V V1 V2 V3 localM q rfs ys1 ys2,
      matrix_from_tile env (pyGet t kTransform) = .ok localM →
      (if is_leaf_tile t then
          ∃ recs, processUris env emptyS t b (m * localM) (extract_content_uris t)
            ([], []) = .ok (recs, q)
        else q = []) →
      expandQueue env q V [] = .ok (rfs, V1) →
      VisitSeq env rfs V1 V2 ys1 →
      VisitSeq env (childSFrames t (m * localM) b) V2 V3 ys2 →
      Visit env ⟨t, m, b⟩ V V3 ((t, m * localM, b) :: (ys1 ++ ys2))

/-- Declarative traversal of a list of sibling frames, in order, threading
the visited set and concatenating the yield streams. -/
inductive VisitSeq : Env → List SFrame → List String → List String → List (J × Mat4 × String) → Prop where
  | nil : ∀ env V, VisitSeq env [] V V []
  | cons : ∀ env f fs V V1 V2 ys1 ys2,
      Visit env f V V1 ys1 →
      VisitSeq env fs V1 V2 ys2 →
      VisitSeq env (f :: fs) V V2 (ys1 ++ ys2)

end

lemma childFrames_parent (ch : List J) (k : ℕ) (full : Mat4) (b : String) :
    ∀ g ∈ (childFrames ch k full b).1, g.parent = full := by
  induction ch generalizing k with
  | nil => intro g hg; simp [childFrames] at hg
  | cons c rest ih =>
    intro g hg
    simp only [childFrames] at hg
    by_cases hc : c.isObj
    · rw [if_pos hc] at hg
      rcases List.mem_cons.mp hg with hg | hg
      · rw [hg]
      · exact ih _ g hg
    · rw [if_neg hc] at hg
      exact ih _ g hg

lemma childFrames_toS (ch : List J) (k : ℕ) (full : Mat4) (b : String) :
    (childFrames ch k full b).1.map Frame.toS =
      ch.filterMap fun c => if c.isObj then some ⟨c, full, b⟩ else none := by
  induction ch generalizing k with
  | nil => simp [childFrames]
  | cons c rest ih =>
    simp only [childFrames, List.filterMap_cons]
    by_cases hc : c.isObj
    · rw [if_pos hc, if_pos hc]
      simp only [List.map_cons, ih]
      rfl
    · rw [if_neg hc, if_neg hc]
      exact ih _

lemma processUris_queue_snd (env : Env) (tid : String) (t : J) (base : String)
    (full : Mat4) :
    ∀ uris recs q r2 q2,
      processUris env tid t base full uris (recs, q) = .ok (r2, q2) →
      ∀ e ∈ q2, e ∈ q ∨ e.2 = full := by
  intro uris
  induction uris with
  | nil =>
    intro recs q r2 q2 h e he
    simp only [processUris] at h
    cases h
    exact Or.inl he
  | cons uri rest ih =>
    intro recs q r2 q2 h e he
    simp only [processUris] at h
    by_cases h1 : is_tileset_uri uri
    · rw [if_pos h1] at h
      rcases ih _ _ _ _ h e he with hin | hsnd
      · unfold queue_external_tileset at hin
        split at hin
        · rcases List.mem_cons.mp hin with hin | hin
          · right; rw [hin]
          · exact Or.inl hin
        · exact Or.inl hin
      · exact Or.inr hsnd
    · rw [if_neg h1] at h
      by_cases h2 : is_b3dm_uri uri = false
      · rw [if_pos h2] at h
        exact ih _ _ _ _ h e he
      · rw [if_neg h2] at h
        split at h
        · exact ih _ _ _ _ h e he
        · cases h

lemma processUris_queue_mono (env : Env) (tid : String) (t : J) (base : String)
    (full : Mat4) :
    ∀ uris recs q r2 q2,
      processUris env tid t base full uris (recs, q) = .ok (r2, q2) →
      ∀ e ∈ q, e ∈ q2 := by
  intro uris
  induction uris with
  | nil =>
    intro recs q r2 q2 h e he
    simp only [processUris] at h
    cases h
    exact he
  | cons uri rest ih =>
    intro recs q r2 q2 h e he
    simp only [processUris] at h
    by_cases h1 : is_tileset_uri uri
    · rw [if_pos h1] at h
      refine ih _ _ _ _ h e ?_
      unfold queue_external_tileset
      split
      · exact List.mem_cons_of_mem _ he
      · exact he
    · rw [if_neg h1] at h
      by_cases h2 : is_b3dm_uri uri = false
      · rw [if_pos h2] at h
        exact ih _ _ _ _ h e he
      · rw [if_neg h2] at h
        split at h
        · exact ih _ _ _ _ h e he
        · cases h

lemma processUris_indep (env : Env) (t : J) (base : String) (full : Mat4) :
    ∀ uris tid recs q r2 q2,
      processUris env tid t base full uris (recs, q) = .ok (r2, q2) →
      ∀ tid2 recs2, ∃ r3,
        processUris env tid2 t base full uris (recs2, q) = .ok (r3, q2) := by
  intro uris
  induction uris with
  | nil =>
    intro tid recs q r2 q2 h tid2 recs2
    simp only [processUris] at h
    cases h
    exact ⟨recs2, rfl⟩
  | cons uri rest ih =>
    intro tid recs q r2 q2 h tid2 recs2
    simp only [processUris] at h ⊢
    by_cases h1 : is_tileset_uri uri
    · rw [if_pos h1] at h ⊢
      exact ih _ _ _ _ _ h tid2 recs2
    · rw [if_neg h1] at h ⊢
      by_cases h2 : is_b3dm_uri uri = false
      · rw [if_pos h2] at h ⊢
        exact ih _ _ _ _ _ h tid2 recs2
      · rw [if_neg h2] at h ⊢
        split at h
        · next hex =>
          rw [if_pos hex]
          exact ih _ _ _ _ _ h tid2
            (recs2 ++ [mkRecord env tid2 t (env.resolve base (strip_query_fragment uri)) full])
        · cases h

lemma drain_expand (env : Env) :
    ∀ q V st k L V2 st2 k2 L2,
      drain env q V st k L = .ok (V2, st2, k2, L2) →
      ∃ new : List Frame, st2 = new ++ st ∧
        (∀ acc, expandQueue env q V acc = .ok (new.map Frame.toS ++ acc, V2)) ∧
        (∀ g ∈ new, ∃ pm ∈ q, g.parent = pm.2) := by
  intro q
  induction q with
  | nil =>
    intro V st k L V2 st2 k2 L2 h
    simp only [drain] at h
    cases h
    refine ⟨[], rfl, ?_, ?_⟩
    · intro acc
      simp [expandQueue]
    · intro g hg
      simp at hg
  | cons e q ih =>
    intro V st k L V2 st2 k2 L2 h
    obtain ⟨p, m⟩ := e
    simp only [drain] at h
    by_cases hp : p ∈ V
    · rw [if_pos hp] at h
      obtain ⟨new, hst, hexp, hpar⟩ := ih _ _ _ _ _ _ _ _ h
      refine ⟨new, hst, ?_, ?_⟩
      · intro acc
        simp only [expandQueue, if_pos hp]
        exact hexp acc
      · intro g hg
        obtain ⟨pm, hpm, hgp⟩ := hpar g hg
        exact ⟨pm, List.mem_cons_of_mem _ hpm, hgp⟩
    · rw [if_neg hp] at h
      split at h
      · simp at h
      · next doc hl =>
        split at h
        · next fs hr =>
          obtain ⟨new, hst, hexp, hpar⟩ := ih _ _ _ _ _ _ _ _ h
          refine ⟨new ++ [⟨tileId (k + 1), J.obj fs, m, env.parentDir p⟩], ?_, ?_, ?_⟩
          · rw [hst]; simp
          · intro acc
            simp only [expandQueue, if_neg hp, hl, hr]
            have := hexp (⟨J.obj fs, m, env.parentDir p⟩ :: acc)
            simpa using this
          · intro g hg
            rcases List.mem_append.mp hg with hg | hg
            · obtain ⟨pm, hpm, hgp⟩ := hpar g hg
              exact ⟨pm, List.mem_cons_of_mem _ hpm, hgp⟩
            · rcases List.mem_singleton.mp hg with rfl
              exact ⟨(p, m), List.mem_cons_self _ _, rfl⟩
        · simp at h

lemma drain_inv (env : Env) :
    ∀ q V st k L V2 st2 k2 L2,
      drain env q V st k L = .ok (V2, st2, k2, L2) →
      L.Nodup → (∀ x ∈ L, x ∈ V) →
      L2.Nodup ∧ (∀ x ∈ L2, x ∈ V2) ∧ (∀ x ∈ V, x ∈ V2) := by
  intro q
  induction q with
  | nil =>
    intro V st k L V2 st2 k2 L2 h hnd hsub
    simp only [drain] at h
    cases h
    exact ⟨hnd, hsub, fun x hx => hx⟩
  | cons e q ih =>
    intro V st k L V2 st2 k2 L2 h hnd hsub
    obtain ⟨p, m⟩ := e
    simp only [drain] at h
    by_cases hp : p ∈ V
    · rw [if_pos hp] at h
      exact ih _ _ _ _ _ _ _ _ h hnd hsub
    · rw [if_neg hp] at h
      split at h
      · simp at h
      · next doc hl =>
        split at h
        · next fs hr =>
          have hnd2 : (L ++ [p]).Nodup := by
            have hpL : p ∉ L := fun hmem => hp (hsub p hmem)
            simp [List.nodup_append, hnd, hpL]
          have hsub2 : ∀ x ∈ L ++ [p], x ∈ p :: V := by
            intro x hx
            rcases List.mem_append.mp hx with hx | hx
            · exact List.mem_cons_of_mem _ (hsub x hx)
            · rcases List.mem_singleton.mp hx with rfl
              exact List.mem_cons_self _ _
          obtain ⟨h1, h2, h3⟩ := ih _ _ _ _ _ _ _ _ h hnd2 hsub2
          exact ⟨h1, h2, fun x hx => h3 x (List.mem_cons_of_mem _ hx)⟩
        · simp at h

lemma stepBuild_none (env : Env) (s : BState) (h : stepBuild env s = .ok none) :
    s.stack = [] := by
  cases hs : s.stack with
  | nil => rfl
  | cons f rest =>
    exfalso
    unfold stepBuild at h
    rw [hs] at h
    split at h
    · rename_i heq
      exact List.noConfusion heq
    · repeat first
        | simp at h
        | split at h

lemma stepBuild_inv (env : Env) (s s2 : BState) (h : stepBuild env s = .ok (some s2)) :
    ∃ f rest localM recs q,
      s.stack = f :: rest ∧
      matrix_from_tile env (pyGet f.tile kTransform) = .ok localM ∧
      (if is_leaf_tile f.tile then
          processUris env f.id f.tile f.base (f.parent * localM)
            (extract_content_uris f.tile) (s.records, s.queued)
        else .ok (s.records, s.queued)) = .ok (recs, q) ∧
      drain env q s.visited
        ((childFrames (childListOf f.tile) s.counter (f.parent * localM) f.base).1 ++ rest)
        (childFrames (childListOf f.tile) s.counter (f.parent * localM) f.base).2
        s.loads = .ok (s2.visited, s2.stack, s2.counter, s2.loads) ∧
      s2.records = recs ∧
      s2.queued = [] ∧
      s2.yielded = s.yielded ++ [(f.id, f.tile, f.parent * localM, f.base)] ∧
      s2.rootFull = some (s.rootFull.getD (f.parent * localM)) := by
  cases hs : s.stack with
  | nil => simp [stepBuild, hs] at h
  | cons f rest =>
    cases hmt : matrix_from_tile env (pyGet f.tile kTransform) with
    | error e =>
      simp only [stepBuild, hs, hmt] at h
      simp at h
    | ok localM =>
      cases hleaf : is_leaf_tile f.tile with
      | true =>
        cases hpu : processUris env f.id f.tile f.base (f.parent * localM)
            (extract_content_uris f.tile) (s.records, s.queued) with
        | error e =>
          simp only [stepBuild, hs, hmt, hleaf, if_true, hpu] at h
          simp at h
        | ok rq =>
          obtain ⟨recs, q⟩ := rq
          cases hd : drain env q s.visited
              ((childFrames (childListOf f.tile) s.counter (f.parent * localM) f.base).1 ++ rest)
              (childFrames (childListOf f.tile) s.counter (f.parent * localM) f.base).2
              s.loads with
          | error e =>
            simp only [stepBuild, hs, hmt, hleaf, if_true, hpu, hd] at h
            simp at h
          | ok out =>
            obtain ⟨V2, st2, k2, L2⟩ := out
            simp only [stepBuild, hs, hmt, hleaf, if_true, hpu, hd, Except.ok.injEq,
              Option.some.injEq] at h
            subst h
            refine ⟨f, rest, localM, recs, q, rfl, hmt, ?_, ?_, rfl, rfl, rfl, ?_⟩
            · rw [hleaf]
              simpa using hpu
            · exact hd
            · rfl
      | false =>
        have hnleaf : ¬ (is_leaf_tile f.tile = true) := by simp [hleaf]
        cases hd : drain env s.queued s.visited
            ((childFrames (childListOf f.tile) s.counter (f.parent * localM) f.base).1 ++ rest)
            (childFrames (childListOf f.tile) s.counter (f.parent * localM) f.base).2
            s.loads with
        | error e =>
          simp only [stepBuild, hs, hmt, if_neg hnleaf, hd] at h
          simp at h
        | ok out =>
          obtain ⟨V2, st2, k2, L2⟩ := out
          simp only [stepBuild, hs, hmt, if_neg hnleaf, hd, Except.ok.injEq,
            Option.some.injEq] at h
          subst h
          refine ⟨f, rest, localM, s.records, s.queued, rfl, hmt, ?_, ?_, rfl, rfl, rfl, ?_⟩
          · rw [if_neg hnleaf]
          · exact hd
          · rfl


lemma visitSeq_cons_inv (env : Env) (f : SFrame) (fs : List SFrame)
    (V V2 : List String) (ys : List (J × Mat4 × String))
    (h : VisitSeq env (f :: fs) V V2 ys) :
    ∃ V1 ys1 ys2, ys = ys1 ++ ys2 ∧ Visit env f V V1 ys1 ∧ VisitSeq env fs V1 V2 ys2 := by
  cases h
  rename_i V1 ys1 ys2 hv hseq
  exact ⟨V1, ys1, ys2, rfl, hv, hseq⟩

lemma visitSeq_append (env : Env) :
    ∀ A B V V2 ys, VisitSeq env (A ++ B) V V2 ys →
      ∃ V1 ys1 ys2, ys = ys1 ++ ys2 ∧ VisitSeq env A V V1 ys1 ∧ VisitSeq env B V1 V2 ys2 := by
  intro A
  induction A with
  | nil =>
    intro B V V2 ys h
    exact ⟨V, [], ys, by simp, VisitSeq.nil env V, h⟩
  | cons a A ih =>
    intro B V V2 ys h
    obtain ⟨V1, ys1, ys2, hys, hv, hseq⟩ := visitSeq_cons_inv env a (A ++ B) V V2 ys h
    obtain ⟨Vm, ysa, ysb, hys2, hA, hB⟩ := ih _ _ _ _ hseq
    exact ⟨Vm, ys1 ++ ysa, ysb, by rw [hys, hys2, List.append_assoc],
      VisitSeq.cons env a A V V1 Vm ys1 ysa hv hA, hB⟩

lemma childFrames_toS2 (t : J) (k : ℕ) (full : Mat4) (b : String) :
    (childFrames (childListOf t) k full b).1.map Frame.toS = childSFrames t full b :=
  childFrames_toS (childListOf t) k full b

lemma runBuild_visitSeq (env : Env) :
    ∀ fuel s final,
      s.queued = [] →
      runBuild env fuel s = .ok final →
      ∃ ys, final.yielded = s.yielded ++ ys ∧
        VisitSeq env (s.stack.map Frame.toS) s.visited final.visited (ys.map projY) := by
  intro fuel
  induction fuel with
  | zero =>
    intro s final hq h
    cases hst : s.stack with
    | nil =>
      simp only [runBuild, hst, List.isEmpty_nil, if_true, Except.ok.injEq] at h
      subst h
      exact ⟨[], by simp, VisitSeq.nil env s.visited⟩
    | cons f rest =>
      simp only [runBuild, hst] at h
      simp at h
  | succ n ih =>
    intro s final hq h
    simp only [runBuild] at h
    cases hstep : stepBuild env s with
    | error e =>
      rw [hstep] at h
      simp at h
    | ok o =>
      cases o with
      | none =>
        have hnil := stepBuild_none env s hstep
        rw [hstep] at h
        simp only [Except.ok.injEq] at h
        subst h
        exact ⟨[], by simp, by rw [hnil]; exact VisitSeq.nil env s.visited⟩
      | some s2 =>
        rw [hstep] at h
        simp only at h
        obtain ⟨f, rest, localM, recs, q, hs, hmt, hpu, hd, hrec, hq2, hyield, hroot⟩ :=
          stepBuild_inv env s s2 hstep
        obtain ⟨ys2, hy2, hseq2⟩ := ih s2 final hq2 h
        obtain ⟨new, hstack2, hexp, hpar⟩ := drain_expand env _ _ _ _ _ _ _ _ _ hd
        rw [hstack2] at hseq2
        rw [List.map_append, List.map_append] at hseq2
        obtain ⟨Va, ysA, ysBC, hysplit, hseqA, hseqBC⟩ := visitSeq_append env _ _ _ _ _ hseq2
        obtain ⟨Vb, ysB, ysC, hysplit2, hseqB, hseqC⟩ := visitSeq_append env _ _ _ _ _ hseqBC
        have hexp0 : expandQueue env q s.visited [] = .ok (new.map Frame.toS, s2.visited) := by
          have := hexp []
          simpa using this
        have hcontent : (if is_leaf_tile f.tile then
            ∃ recs2, processUris env emptyS f.tile f.base (f.parent * localM)
              (extract_content_uris f.tile) ([], []) = .ok (recs2, q)
          else q = []) := by
          by_cases hleaf : is_leaf_tile f.tile = true
          · rw [if_pos hleaf]
            rw [if_pos hleaf] at hpu
            rw [hq] at hpu
            obtain ⟨r3, h3⟩ := processUris_indep env f.tile f.base (f.parent * localM)
              (extract_content_uris f.tile) f.id s.records [] recs q hpu emptyS []
            exact ⟨r3, h3⟩
          · rw [if_neg hleaf]
            rw [if_neg hleaf] at hpu
            simp only [Except.ok.injEq, Prod.mk.injEq] at hpu
            rw [← hpu.2, hq]
        have hseqB2 : VisitSeq env (childSFrames f.tile (f.parent * localM) f.base) Va Vb ysB := by
          rwa [childFrames_toS2] at hseqB
        have hvisit : Visit env ⟨f.tile, f.parent, f.base⟩ s.visited Vb
            ((f.tile, f.parent * localM, f.base) :: (ysA ++ ysB)) :=
          Visit.mk env f.tile f.parent f.base s.visited s2.visited Va Vb localM q
            (new.map Frame.toS) ysA ysB hmt hcontent hexp0 hseqA hseqB2
        refine ⟨(f.id, f.tile, f.parent * localM, f.base) :: ys2, ?_, ?_⟩
        · rw [hy2, hyield, List.append_assoc]
          rfl
        · rw [hs]
          have hys : (((f.id, f.tile, f.parent * localM, f.base) :: ys2).map projY) =
              ((f.tile, f.parent * localM, f.base) :: (ysA ++ ysB)) ++ ysC := by
            simp only [List.map_cons, projY, hysplit, hysplit2]
            simp [List.append_assoc]
          rw [hys]
          exact VisitSeq.cons env (Frame.toS f) (rest.map Frame.toS) s.visited Vb final.visited
            ((f.tile, f.parent * localM, f.base) :: (ysA ++ ysB)) ysC hvisit hseqC



lemma matrix_from_tile_err (env : Env) (t : J) (e : Err)
    (h : matrix_from_tile env t = .error e) : e = .badTransform ∨ e = .badFloat := by
  unfold matrix_from_tile at h
  split at h
  · simp at h
  · split at h
    · split at h
      · split at h
        · simp at h
        · simp only [Except.error.injEq] at h
          exact Or.inr h.symm
      · simp only [Except.error.injEq] at h
        exact Or.inl h.symm
    · simp only [Except.error.injEq] at h
      exact Or.inl h.symm

lemma processUris_err (env : Env) (tid : String) (t : J) (base : String) (full : Mat4) :
    ∀ uris acc e, processUris env tid t base full uris acc = .error e →
      ∃ p, e = .missingContent p := by
  intro uris
  induction uris with
  | nil =>
    intro acc e h
    simp [processUris] at h
  | cons uri rest ih =>
    intro acc e h
    obtain ⟨recs, q⟩ := acc
    simp only [processUris] at h
    split at h
    · exact ih _ _ h
    · split at h
      · exact ih _ _ h
      · split at h
        · exact ih _ _ h
        · simp only [Except.error.injEq] at h
          exact ⟨_, h.symm⟩

lemma load_tileset_err (env : Env) (p : String) (e : Err)
    (h : load_tileset env p = .error e) : e = .invalidJson p ∨ e = .notObject p := by
  unfold load_tileset at h
  split at h
  · simp only [Except.error.injEq] at h
    exact Or.inl h.symm
  · split at h
    · simp at h
    · simp only [Except.error.injEq] at h
      exact Or.inr h.symm

lemma drain_err (env : Env) :
    ∀ q V st k L e, drain env q V st k L = .error e →
      ∃ p, e = .invalidJson p ∨ e = .notObject p ∨ e = .missingExternalRoot p := by
  intro q
  induction q with
  | nil =>
    intro V st k L e h
    simp [drain] at h
  | cons x q ih =>
    intro V st k L e h
    obtain ⟨p, m⟩ := x
    simp only [drain] at h
    split at h
    · exact ih _ _ _ _ _ h
    · split at h
      · next e2 hl =>
        simp only [Except.error.injEq] at h
        subst h
        rcases load_tileset_err env p e2 hl with h2 | h2
        · exact ⟨p, Or.inl h2⟩
        · exact ⟨p, Or.inr (Or.inl h2)⟩
      · split at h
        · exact ih _ _ _ _ _ h
        · simp only [Except.error.injEq] at h
          exact ⟨p, Or.inr (Or.inr h.symm)⟩

lemma stepBuild_err (env : Env) (s : BState) (e : Err)
    (h : stepBuild env s = .error e) : e ≠ .noTiles := by
  unfold stepBuild at h
  split at h
  · simp at h
  · split at h
    · next e2 hmt =>
      simp only [Except.error.injEq] at h
      subst h
      rcases matrix_from_tile_err _ _ _ hmt with h2 | h2 <;> simp [h2]
    · split at h
      · next e2 hif =>
        simp only [Except.error.injEq] at h
        subst h
        split at hif
        · obtain ⟨p, hp⟩ := processUris_err _ _ _ _ _ _ _ _ hif
          simp [hp]
        · simp at hif
      · split at h
        · next e2 hd =>
          simp only [Except.error.injEq] at h
          subst h
          obtain ⟨p, hp⟩ := drain_err _ _ _ _ _ _ _ hd
          rcases hp with hp | hp | hp <;> simp [hp]
        · simp at h

lemma runBuild_err (env : Env) :
    ∀ fuel s e, runBuild env fuel s = .error e → e ≠ .noTiles := by
  intro fuel
  induction fuel with
  | zero =>
    intro s e h
    simp only [runBuild] at h
    split at h
    · simp at h
    · simp only [Except.error.injEq] at h
      subst h
      simp
  | succ n ih =>
    intro s e h
    simp only [runBuild] at h
    cases hstep : stepBuild env s with
    | error e2 =>
      rw [hstep] at h
      simp only [Except.error.injEq] at h
      subst h
      exact stepBuild_err env s _ hstep
    | ok o =>
      rw [hstep] at h
      cases o with
      | none => simp at h
      | some s2 =>
        simp only at h
        exact ih s2 e h

lemma runBuild_rootFull_mono (env : Env) :
    ∀ fuel s final, runBuild env fuel s = .ok final →
      s.rootFull.isSome → final.rootFull.isSome := by
  intro fuel
  induction fuel with
  | zero =>
    intro s final h hs
    simp only [runBuild] at h
    split at h
    · simp only [Except.ok.injEq] at h
      subst h
      exact hs
    · simp at h
  | succ n ih =>
    intro s final h hs
    simp only [runBuild] at h
    cases hstep : stepBuild env s with
    | error e => rw [hstep] at h; simp at h
    | ok o =>
      rw [hstep] at h
      cases o with
      | none =>
        simp only [Except.ok.injEq] at h
        subst h
        exact hs
      | some s2 =>
        simp only at h
        obtain ⟨f, rest, localM, recs, q, _, _, _, _, _, _, _, hroot⟩ :=
          stepBuild_inv env s s2 hstep
        exact ih s2 final h (by rw [hroot]; rfl)

lemma runBuild_rootFull (env : Env) :
    ∀ fuel s final, runBuild env fuel s = .ok final →
      s.stack ≠ [] → final.rootFull.isSome := by
  intro fuel
  induction fuel with
  | zero =>
    intro s final h hs
    simp only [runBuild] at h
    split at h
    · next hemp =>
      exact absurd (List.isEmpty_iff.mp hemp) hs
    · simp at h
  | succ n ih =>
    intro s final h hs
    simp only [runBuild] at h
    cases hstep : stepBuild env s with
    | error e => rw [hstep] at h; simp at h
    | ok o =>
      rw [hstep] at h
      cases o with
      | none => exact absurd (stepBuild_none env s hstep) hs
      | some s2 =>
        simp only at h
        obtain ⟨f, rest, localM, recs, q, _, _, _, _, _, _, _, hroot⟩ :=
          stepBuild_inv env s s2 hstep
        exact runBuild_rootFull_mono env n s2 final h (by rw [hroot]; rfl)

lemma runBuild_loads_nodup (env : Env) :
    ∀ fuel s final, runBuild env fuel s = .ok final →
      s.loads.Nodup → (∀ x ∈ s.loads, x ∈ s.visited) →
      final.loads.Nodup := by
  intro fuel
  induction fuel with
  | zero =>
    intro s final h hnd hsub
    simp only [runBuild] at h
    split at h
    · simp only [Except.ok.injEq] at h
      subst h
      exact hnd
    · simp at h
  | succ n ih =>
    intro s final h hnd hsub
    simp only [runBuild] at h
    cases hstep : stepBuild env s with
    | error e => rw [hstep] at h; simp at h
    | ok o =>
      rw [hstep] at h
      cases o with
      | none =>
        simp only [Except.ok.injEq] at h
        subst h
        exact hnd
      | some s2 =>
        simp only at h
        obtain ⟨f, rest, localM, recs, q, _, _, _, hd, _, _, _, _⟩ :=
          stepBuild_inv env s s2 hstep
        obtain ⟨h1, h2, h3⟩ := drain_inv env _ _ _ _ _ _ _ _ _ hd hnd hsub
        exact ih s2 final h h1 h2

lemma derive_origin_err (env : Env) (t : J) (M : Mat4) (e : Err)
    (h : derive_origin env t M = .error e) : e = .badFloat := by
  unfold derive_origin at h
  split at h
  · split at h
    · next r hr =>
      unfold regionCase at hr
      split at hr
      · simp only [Option.some.injEq] at hr
        subst hr
        split at h
        · simp at h
        · simp only [Except.error.injEq] at h
          exact h.symm
      · simp at hr
    · split at h
      · next r hr =>
        unfold sphereCase at hr
        split at hr
        · simp only [Option.some.injEq] at hr
          subst hr
          split at h
          · simp at h
          · simp only [Except.error.injEq] at h
            exact h.symm
        · simp at hr
      · split at h
        · next r hr =>
          unfold boxCase at hr
          split at hr
          · split at hr
            · simp only [Option.some.injEq] at hr
              subst hr
              split at h
              · simp at h
              · simp only [Except.error.injEq] at h
                exact h.symm
            · simp at hr
          · simp at hr
        · simp at h
  · simp at h



/-- A float parser that accepts no strings (concrete examples below use
only numeric JSON values). -/
def pf0 : String → Option ℚ := fun _ => none

/-- A minimal concrete environment: empty filesystem, no existing files,
path resolution by plain concatenation. -/
def env0 : Env :=
  { fs := fun _ => none
    fileExists := fun _ => false
    resolve := fun b u => b ++ slash ++ u
    parentDir := fun _ => emptyS
    parseFloat := pf0
    glbDir := emptyS
    nan := 0
    npNested := fun _ => none }

def dirD : String := "dd"

def sAJson : String := "a.json"

def extPath : String := "dd/a.json"

/-- A minimal external tileset document whose root is the empty tile. -/
def extDoc : J := J.obj [(kRoot, J.obj [])]

def env4 : Env :=
  { env0 with fs := fun p => if p = extPath then some extDoc else none }

/-- A leaf root tile whose `contents` list references the same external
document twice. -/
def root4 : J :=
  J.obj [(kContents, J.arr [J.obj [(kUri, J.str sAJson)], J.obj [(kUri, J.str sAJson)]])]

def c4final : BState :=
  match runBuild env4 4 (initState root4 dirD) with
  | .ok s => s
  | .error _ => initState root4 dirD



/-- C1: every yield's absolute transform is the frame's parent transform
matrix-multiplied by the tile's local transform (identity when the
transform field is absent/null); the root of the outer document is seeded
with the identity parent transform; and every frame pushed while a tile is
processed — its children and the roots of external documents its content
referenced — carries the processed tile's absolute transform as its parent
transform. -/
theorem c1_transform_composition :
    (∀ root dir, (initState root dir).stack = [⟨tileIdZero, root, 1, dir⟩]) ∧
    (∀ env : Env, matrix_from_tile env J.null = .ok 1) ∧
    (∀ env s f rest s2 localM,
      s.stack = f :: rest → s.queued = [] →
      stepBuild env s = .ok (some s2) →
      matrix_from_tile env (pyGet f.tile kTransform) = .ok localM →
      s2.yielded = s.yielded ++ [(f.id, f.tile, f.parent * localM, f.base)] ∧
      ∃ new, s2.stack = new ++ rest ∧ ∀ g ∈ new, g.parent = f.parent * localM) := by
  refine ⟨fun root dir => rfl, fun env => rfl, ?_⟩
  intro env s f rest s2 localM hs hq hstep hmt
  obtain ⟨f2, rest2, localM2, recs, q, hs2, hmt2, hpu, hd, hrec, hq2, hyield, hroot⟩ :=
    stepBuild_inv env s s2 hstep
  rw [hs] at hs2
  injection hs2 with hf hr
  subst hf
  subst hr
  rw [hmt] at hmt2
  injection hmt2 with hl
  subst hl
  refine ⟨hyield, ?_⟩
  obtain ⟨new, hstack2, hexp, hpar⟩ := drain_expand env _ _ _ _ _ _ _ _ _ hd
  refine ⟨new ++ (childFrames (childListOf f.tile) s.counter (f.parent * localM) f.base).1,
    by rw [hstack2, List.append_assoc], ?_⟩
  intro g hg
  rcases List.mem_append.mp hg with hg | hg
  · obtain ⟨pm, hpm, hgp⟩ := hpar g hg
    by_cases hleaf : is_leaf_tile f.tile = true
    · rw [if_pos hleaf, hq] at hpu
      rcases processUris_queue_snd env f.id f.tile f.base (f.parent * localM)
        (extract_content_uris f.tile) s.records [] recs q hpu pm hpm with h0 | hsnd
      · simp at h0
      · rw [hgp, hsnd]
    · rw [if_neg hleaf] at hpu
      simp only [Except.ok.injEq, Prod.mk.injEq] at hpu
      rw [← hpu.2, hq] at hpm
      simp at hpm
  · exact childFrames_parent _ _ _ _ g hg

/-- The state after one step on the trivial single-tile document. -/
def c1s2 : BState :=
  ⟨[], 0, [], [], [], some ((1 : Mat4) * 1),
    [(tileIdZero, J.obj [], (1 : Mat4) * 1, dirD)], []⟩

/-- Witness for C1 at a concrete input. -/
theorem c1_transform_composition_witness :
    ((initState (J.obj []) dirD).stack = [⟨tileIdZero, J.obj [], 1, dirD⟩] ∧
      matrix_from_tile env0 J.null = .ok 1) ∧
    (stepBuild env0 (initState (J.obj []) dirD) = .ok (some c1s2) ∧
      matrix_from_tile env0 (pyGet (J.obj []) kTransform) = .ok 1) ∧
    (c1s2.yielded = (initState (J.obj []) dirD).yielded ++
        [(tileIdZero, J.obj [], (1 : Mat4) * 1, dirD)] ∧
      ∃ new, c1s2.stack = new ++ [] ∧ ∀ g ∈ new, g.parent = (1 : Mat4) * 1) :=
  ⟨⟨c1_transform_composition.1 (J.obj []) dirD, c1_transform_composition.2.1 env0⟩,
    ⟨rfl, rfl⟩,
    c1_transform_composition.2.2 env0 (initState (J.obj []) dirD)
      ⟨tileIdZero, J.obj [], 1, dirD⟩ [] c1s2 1 rfl rfl rfl rfl⟩

/-- C2: a completed traversal's yield stream admits the declarative
pre-order decomposition: each tile's yield is immediately followed by the
streams of the external documents its content freshly referenced (in
content order), then the streams of its children (in document order), then
its remaining siblings — starting from the seeded root frame. -/
theorem c2_preorder_traversal (env : Env) (fuel : ℕ) (root : J) (dir : String)
    (final : BState)
    (h : runBuild env fuel (initState root dir) = .ok final) :
    VisitSeq env [⟨root, 1, dir⟩] [] final.visited (final.yielded.map projY) := by
  obtain ⟨ys, hy, hseq⟩ := runBuild_visitSeq env fuel (initState root dir) final rfl h
  rw [hy]
  simpa [initState, Frame.toS] using hseq

/-- A two-tile document: a root with one child. -/
def root2 : J := J.obj [(kChildren, J.arr [J.obj []])]

def c2final : BState :=
  match runBuild env0 3 (initState root2 dirD) with
  | .ok s => s
  | .error _ => initState root2 dirD

/-- Witness for C2 at a concrete input. -/
theorem c2_preorder_traversal_witness :
    runBuild env0 3 (initState root2 dirD) = .ok c2final ∧
    VisitSeq env0 [⟨root2, 1, dirD⟩] [] c2final.visited (c2final.yielded.map projY) :=
  ⟨rfl, c2_preorder_traversal env0 3 root2 dirD c2final rfl⟩

/-- C3 (amended): the "No tiles found" check guards the first yielded
transform being unset, and since the root frame is always popped and
yielded first, a run of `build_manifest` never fails with that error — in
particular a traversal with zero leaf-content records does NOT fail. -/
theorem c3_no_empty_traversal_error (env : Env) (fuel : ℕ) (p : String) :
    build_manifest env fuel p ≠ .error .noTiles := by
  intro h
  unfold build_manifest at h
  split at h
  · next e hl =>
    simp only [Except.error.injEq] at h
    subst h
    rcases load_tileset_err env p _ hl with h2 | h2 <;> simp at h2
  · next tileset hl =>
    split at h
    · next rootFs hr =>
      split at h
      · next e hrun =>
        simp only [Except.error.injEq] at h
        subst h
        exact runBuild_err env fuel _ _ hrun rfl
      · next final hrun =>
        split at h
        · next hnone =>
          have hsome := runBuild_rootFull env fuel _ final hrun (by simp [initState])
          rw [hnone] at hsome
          simp at hsome
        · next rf hsome =>
          split at h
          · next e hde =>
            simp only [Except.error.injEq] at h
            subst h
            have hbf := derive_origin_err env _ _ _ hde
            simp at hbf
          · simp at h
    · simp at h

def path3 : String := "ts"

def env3 : Env :=
  { env0 with fs := fun p => if p = path3 then some (J.obj [(kRoot, J.obj [])]) else none }

/-- Counterexample for C3 as stated: a document whose root is a childless,
contentless tile produces zero FlatTileRecords, yet `build_manifest`
returns a manifest (with an empty tiles list) instead of failing. -/
theorem c3_counterexample :
    (build_manifest env3 5 path3).map BuildResult.tiles = .ok [] := rfl

/-- Witness for C3's amended theorem at a concrete input. -/
theorem c3_no_empty_traversal_error_witness :
    build_manifest env3 5 path3 ≠ .error .noTiles :=
  c3_no_empty_traversal_error env3 5 path3

/-- C4: an already-visited resolved path popped from the queue is skipped
with no load, no push, and no error; a fresh path is marked visited,
loaded (recorded in the I/O trace), and its root pushed; and over a whole
run the trace of external-document loads never repeats a path. -/
theorem c4_dedup_external :
    (∀ (env : Env) (p : String) (m : Mat4) q V st k L, p ∈ V →
      drain env ((p, m) :: q) V st k L = drain env q V st k L) ∧
    (∀ (env : Env) (p : String) (m : Mat4) q V st k L (doc : J) rfs, p ∉ V →
      load_tileset env p = .ok doc → pyGet doc kRoot = J.obj rfs →
      drain env ((p, m) :: q) V st k L =
        drain env q (p :: V) (⟨tileId (k + 1), J.obj rfs, m, env.parentDir p⟩ :: st)
          (k + 1) (L ++ [p])) ∧
    (∀ (env : Env) fuel s final, runBuild env fuel s = .ok final →
      s.loads.Nodup → (∀ x ∈ s.loads, x ∈ s.visited) → final.loads.Nodup) := by
  refine ⟨?_, ?_, fun env fuel s final h h1 h2 => runBuild_loads_nodup env fuel s final h h1 h2⟩
  · intro env p m q V st k L hp
    simp only [drain, if_pos hp]
  · intro env p m q V st k L doc rfs hp hl hr
    simp only [drain, if_neg hp, hl, hr]

/-- Witness for C4 at concrete inputs: a leaf tile referencing the same
external document twice loads it exactly once. -/
theorem c4_dedup_external_witness :
    (extPath ∈ [extPath] ∧
      drain env4 [(extPath, (1 : Mat4))] [extPath] [] 0 [] =
        drain env4 [] [extPath] [] 0 []) ∧
    ((extPath ∉ ([] : List String)) ∧
      drain env4 [(extPath, (1 : Mat4))] [] [] 0 [] =
        drain env4 [] [extPath]
          [⟨tileId (0 + 1), J.obj [], 1, env4.parentDir extPath⟩] (0 + 1) ([] ++ [extPath])) ∧
    (runBuild env4 4 (initState root4 dirD) = .ok c4final ∧
      c4final.loads = [extPath] ∧ c4final.loads.Nodup) := by
  refine ⟨⟨List.mem_singleton.mpr rfl, ?_⟩, ⟨List.not_mem_nil _, ?_⟩, rfl, rfl, ?_⟩
  · exact c4_dedup_external.1 env4 extPath 1 [] [extPath] [] 0 []
      (List.mem_singleton.mpr rfl)
  · exact c4_dedup_external.2.1 env4 extPath 1 [] [] [] 0 [] extDoc []
      (List.not_mem_nil _) rfl rfl
  · exact c4_dedup_external.2.2 env4 4 (initState root4 dirD) c4final rfl
      List.nodup_nil (fun x hx => absurd hx (List.not_mem_nil x))



def env6 : Env :=
  { env0 with fs := fun p => if p = extPath then some extDoc else none }

/-- A NON-leaf root (one child) whose `content` references an external
tileset document that does exist in the filesystem. -/
def root6 : J :=
  J.obj [(kChildren, J.arr [J.obj []]), (kContent, J.obj [(kUri, J.str sAJson)])]

def c6final : BState :=
  match runBuild env6 5 (initState root6 dirD) with
  | .ok s => s
  | .error _ => initState root6 dirD

/-- The state after the first step on `root6` (the non-leaf root is popped,
its child pushed, its content ignored). -/
def c6step1 : BState :=
  match stepBuild env6 (initState root6 dirD) with
  | .ok (some s) => s
  | _ => initState root6 dirD

/-- The record/queue pair produced by processing `root4`'s content URIs. -/
def c4pu : List TileRecord × List (String × Mat4) :=
  match processUris env4 tileIdZero root4 dirD 1 (extract_content_uris root4) ([], []) with
  | .ok rq => rq
  | .error _ => ([], [])

/-- A 16-element all-zero transform list and its coerced values. -/
def c7list : List J := List.replicate 16 (J.num 0)

def c7vals : List ℚ := List.replicate 16 0

/-- A 16-element all-null transform list (numpy coerces each `None` to
NaN — `env0`'s surrogate 0 — and does not raise). -/
def c7nulls : List J := List.replicate 16 J.null

def c7nullVals : List ℚ := List.replicate 16 env0.nan


lemma processUris_queues (env : Env) (tid : String) (t : J) (base : String) (full : Mat4) :
    ∀ uris recs q r2 q2 uri,
      processUris env tid t base full uris (recs, q) = .ok (r2, q2) →
      uri ∈ uris → is_tileset_uri uri = true →
      lowerStr (pathSuffix (env.resolve base (strip_query_fragment uri))) = sJson →
      (env.resolve base (strip_query_fragment uri), full) ∈ q2 := by
  intro uris
  induction uris with
  | nil =>
    intro recs q r2 q2 uri h hm htu hsuf
    simp at hm
  | cons u rest ih =>
    intro recs q r2 q2 uri h hm htu hsuf
    rcases List.mem_cons.mp hm with rfl | hm2
    · simp only [processUris] at h
      rw [if_pos htu] at h
      refine processUris_queue_mono env tid t base full rest _ _ _ _ h _ ?_
      unfold queue_external_tileset
      rw [if_pos hsuf]
      exact List.mem_cons_self _ _
    · simp only [processUris] at h
      split at h
      · exact ih _ _ _ _ _ h hm2 htu hsuf
      · split at h
        · exact ih _ _ _ _ _ h hm2 htu hsuf
        · split at h
          · exact ih _ _ _ _ _ h hm2 htu hsuf
          · cases h

/-- C6 (amended): only leaf tiles' content URIs are examined — a step that
pops a non-leaf tile leaves the records, the visited set and the load
trace untouched (its content, tileset references included, is ignored);
and for a leaf tile, every content URI classified as a tileset reference
whose resolved path carries a ".json" suffix is enqueued, paired with the
tile's absolute transform. -/
theorem c6_leaf_content_refs :
    (∀ env s f rest s2,
      s.stack = f :: rest → s.queued = [] →
      is_leaf_tile f.tile = false →
      stepBuild env s = .ok (some s2) →
      s2.records = s.records ∧ s2.visited = s.visited ∧ s2.loads = s.loads) ∧
    (∀ (env : Env) tid (t : J) base (full : Mat4) recs q r2 q2 uri,
      uri ∈ extract_content_uris t →
      is_tileset_uri uri = true →
      lowerStr (pathSuffix (env.resolve base (strip_query_fragment uri))) = sJson →
      processUris env tid t base full (extract_content_uris t) (recs, q) = .ok (r2, q2) →
      (env.resolve base (strip_query_fragment uri), full) ∈ q2) := by
  constructor
  · intro env s f rest s2 hs hq hleaf hstep
    obtain ⟨f2, rest2, localM, recs, q, hs2, hmt, hpu, hd, hrec, hq2, hyield, hroot⟩ :=
      stepBuild_inv env s s2 hstep
    rw [hs] at hs2
    injection hs2 with hf hr
    subst hf
    subst hr
    rw [if_neg (by simp [hleaf])] at hpu
    simp only [Except.ok.injEq, Prod.mk.injEq] at hpu
    obtain ⟨hrecs, hqq⟩ := hpu
    rw [← hqq, hq] at hd
    simp only [drain, Except.ok.injEq, Prod.mk.injEq] at hd
    obtain ⟨hv, hst2, hk, hL⟩ := hd
    exact ⟨by rw [hrec, ← hrecs], hv.symm, hL.symm⟩
  · intro env tid t base full recs q r2 q2 uri hm htu hsuf h
    exact processUris_queues env tid t base full (extract_content_uris t)
      recs q r2 q2 uri h hm htu hsuf

/-- Counterexample for C6 as stated: a yielded non-leaf tile with a
tileset-suffixed content URI (whose target exists) is NOT enqueued — the
run completes with the reference neither visited nor loaded. -/
theorem c6_counterexample :
    is_leaf_tile root6 = false ∧
    extract_content_uris root6 = [sAJson] ∧
    is_tileset_uri sAJson = true ∧
    env6.fs (env6.resolve dirD (strip_query_fragment sAJson)) = some extDoc ∧
    runBuild env6 5 (initState root6 dirD) = .ok c6final ∧
    c6final.visited = [] ∧ c6final.loads = [] :=
  ⟨rfl, rfl, rfl, rfl, rfl, rfl, rfl⟩

/-- Witness for C6's amended theorem at concrete inputs. -/
theorem c6_leaf_content_refs_witness :
    ((initState root6 dirD).stack = ⟨tileIdZero, root6, 1, dirD⟩ :: [] ∧
      is_leaf_tile root6 = false ∧
      stepBuild env6 (initState root6 dirD) = .ok (some c6step1) ∧
      c6step1.records = (initState root6 dirD).records ∧
      c6step1.visited = (initState root6 dirD).visited ∧
      c6step1.loads = (initState root6 dirD).loads) ∧
    (sAJson ∈ extract_content_uris root4 ∧
      is_tileset_uri sAJson = true ∧
      lowerStr (pathSuffix (env4.resolve dirD (strip_query_fragment sAJson))) = sJson ∧
      processUris env4 tileIdZero root4 dirD 1 (extract_content_uris root4) ([], []) =
        .ok c4pu ∧
      (env4.resolve dirD (strip_query_fragment sAJson), (1 : Mat4)) ∈ c4pu.2) := by
  refine ⟨⟨rfl, rfl, rfl, ?_⟩, ?_⟩
  · exact c6_leaf_content_refs.1 env6 (initState root6 dirD)
      ⟨tileIdZero, root6, 1, dirD⟩ [] c6step1 rfl rfl rfl rfl
  · have hmem : sAJson ∈ extract_content_uris root4 := by
      show sAJson ∈ [sAJson, sAJson]
      exact List.mem_cons_self _ _
    refine ⟨hmem, rfl, rfl, rfl, ?_⟩
    exact c6_leaf_content_refs.2 env4 tileIdZero root4 dirD 1 [] [] c4pu.1 c4pu.2 sAJson
      hmem rfl rfl rfl

/-- C7 (amended): a falsy transform value (absent/null, but also the empty
list, 0, false, "") parses to the identity without raising; a 16-element
list of values the numpy elementwise coercion accepts — numbers, booleans,
`None` (becoming NaN, not raising), parseable strings, accepted nestings —
parses to the column-major matrix of the coerced values; and parsing
raises exactly when the value is truthy and not a 16-element list of
accepted values. -/
theorem c7_transform_parsing :
    (∀ (env : Env) (t : J), truthy t = false →
      matrix_from_tile env t = .ok 1) ∧
    (∀ (env : Env) (l : List J) (qs : List ℚ),
      l.length = 16 → npFloatList env l = some qs →
      matrix_from_tile env (J.arr l) = .ok (matFromColMajor qs)) ∧
    (∀ (env : Env) (t : J),
      (∃ e, matrix_from_tile env t = .error e) ↔
        (truthy t = true ∧
          ¬ ∃ l, t = J.arr l ∧ l.length = 16 ∧ (npFloatList env l).isSome)) := by
  refine ⟨?_, ?_, ?_⟩
  · intro env t ht
    unfold matrix_from_tile
    rw [if_pos ht]
  · intro env l qs hlen hco
    have hne : l ≠ [] := by
      intro h0
      rw [h0] at hlen
      simp at hlen
    have htr : ¬ (truthy (J.arr l) = false) := by
      cases l with
      | nil => exact absurd rfl hne
      | cons a as => simp [truthy]
    unfold matrix_from_tile
    rw [if_neg htr]
    show (if l.length = 16 then
        match npFloatList env l with
        | some qs2 => Except.ok (matFromColMajor qs2)
        | none => Except.error Err.badFloat
      else Except.error Err.badTransform) = Except.ok (matFromColMajor qs)
    rw [if_pos hlen, hco]
  · intro env t
    constructor
    · rintro ⟨e, he⟩
      unfold matrix_from_tile at he
      split at he
      · simp at he
      · next hcond =>
        have htr : truthy t = true := by
          cases h0 : truthy t with
          | false => exact absurd h0 hcond
          | true => rfl
        refine ⟨htr, ?_⟩
        rintro ⟨l, rfl, hlen, hsome⟩
        have he2 : (if l.length = 16 then
            match npFloatList env l with
            | some qs => Except.ok (matFromColMajor qs)
            | none => Except.error Err.badFloat
          else Except.error Err.badTransform) = Except.error e := he
        rw [if_pos hlen] at he2
        obtain ⟨qs, hqs⟩ := Option.isSome_iff_exists.mp hsome
        rw [hqs] at he2
        simp at he2
    · rintro ⟨htr, hnot⟩
      unfold matrix_from_tile
      rw [if_neg (by simp [htr])]
      cases t with
      | arr l =>
        show ∃ e, (if l.length = 16 then
            match npFloatList env l with
            | some qs => Except.ok (matFromColMajor qs)
            | none => Except.error Err.badFloat
          else Except.error Err.badTransform) = Except.error e
        by_cases hlen : l.length = 16
        · rw [if_pos hlen]
          cases hfl : npFloatList env l with
          | some qs => exact absurd ⟨l, rfl, hlen, by rw [hfl]; rfl⟩ hnot
          | none => exact ⟨.badFloat, rfl⟩
        · rw [if_neg hlen]
          exact ⟨.badTransform, rfl⟩
      | null => exact ⟨.badTransform, rfl⟩
      | bool b => exact ⟨.badTransform, rfl⟩
      | num n => exact ⟨.badTransform, rfl⟩
      | str s => exact ⟨.badTransform, rfl⟩
      | obj fs => exact ⟨.badTransform, rfl⟩

/-- Counterexample for C7 as stated: the empty list is a present transform
value that is not a 16-number list, yet parsing returns the identity
instead of raising. -/
theorem c7_counterexample :
    (J.arr [] ≠ J.null ∧ truthy (J.arr []) = false) ∧
    matrix_from_tile env0 (J.arr []) = .ok 1 :=
  ⟨⟨fun h => J.noConfusion h, rfl⟩, rfl⟩

/-- Witness for C7's amended theorem at concrete inputs, including a
16-null transform list that parses successfully instead of raising. -/
theorem c7_transform_parsing_witness :
    (truthy J.null = false ∧ matrix_from_tile env0 J.null = .ok 1) ∧
    (c7list.length = 16 ∧ npFloatList env0 c7list = some c7vals ∧
      matrix_from_tile env0 (J.arr c7list) = .ok (matFromColMajor c7vals)) ∧
    (c7nulls.length = 16 ∧ npFloatList env0 c7nulls = some c7nullVals ∧
      matrix_from_tile env0 (J.arr c7nulls) = .ok (matFromColMajor c7nullVals)) ∧
    ((∃ e, matrix_from_tile env0 (J.str sAJson) = .error e) ↔
      (truthy (J.str sAJson) = true ∧
        ¬ ∃ l, J.str sAJson = J.arr l ∧ l.length = 16 ∧ (npFloatList env0 l).isSome)) :=
  ⟨⟨rfl, c7_transform_parsing.1 env0 J.null rfl⟩,
    ⟨rfl, rfl, c7_transform_parsing.2.1 env0 c7list c7vals rfl rfl⟩,
    ⟨rfl, rfl, c7_transform_parsing.2.1 env0 c7nulls c7nullVals rfl rfl⟩,
    c7_transform_parsing.2.2 env0 (J.str sAJson)⟩



lemma regionCase_none (pf : String → Option ℚ) (bv : J)
    (h : ¬ ∃ l, pyGet bv kRegion = J.arr l ∧ l.length = 6) :
    regionCase pf bv = none := by
  unfold regionCase
  split
  · next v0 v1 v2 v3 v4 v5 heq =>
    exact absurd ⟨[v0, v1, v2, v3, v4, v5], heq, rfl⟩ h
  · rfl

lemma sphereCase_none (pf : String → Option ℚ) (bv : J) (M : Mat4)
    (h : ¬ ∃ l, pyGet bv kSphere = J.arr l ∧ l.length = 4) :
    sphereCase pf bv M = none := by
  unfold sphereCase
  split
  · next c0 c1 c2 r heq =>
    exact absurd ⟨[c0, c1, c2, r], heq, rfl⟩ h
  · rfl

lemma boxCase_none (pf : String → Option ℚ) (bv : J) (M : Mat4)
    (h : ¬ ∃ l, pyGet bv kBox = J.arr l ∧ l.length = 12) :
    boxCase pf bv M = none := by
  unfold boxCase
  split
  · next l heq =>
    split
    · next hlen => exact absurd ⟨l, heq, hlen⟩ h
    · rfl
  · rfl

/-- C5: `_derive_origin` follows the strict priority region, then sphere,
then box, then the root-translation fallback.  A region of six numbers
gives latitude = degrees of the south/north mean, longitude = degrees of
the west/east mean, altitude = the minimum height, the ECEF point derived
from that geodetic point, and the tag "region" — independently of the root
transform `M` (which the statement quantifies over without using).  A
sphere (when no region applies) transforms its center by `M`; a box (when
neither applies) transforms its center by `M`; otherwise the fallback
returns the translation of `M` with tag "root". -/
theorem c5_origin_priority :
    (∀ (env : Env) (t : J) (M : Mat4) (bvf : List (String × J)) (w s e n h0 h1 : ℚ),
      pyGet t kBoundingVolume = J.obj bvf →
      pyGet (J.obj bvf) kRegion =
        J.arr [J.num w, J.num s, J.num e, J.num n, J.num h0, J.num h1] →
      derive_origin env t M =
        .ok (llaToEcefList (degrees (((s : ℝ) + (n : ℝ)) * 0.5))
              (degrees (((w : ℝ) + (e : ℝ)) * 0.5)) ((h0 : ℝ)),
          [degrees (((s : ℝ) + (n : ℝ)) * 0.5), degrees (((w : ℝ) + (e : ℝ)) * 0.5),
            ((h0 : ℝ))], tagRegion)) ∧
    (∀ (env : Env) (t : J) (M : Mat4) (bvf : List (String × J)) (x y z : ℚ) (r : J),
      pyGet t kBoundingVolume = J.obj bvf →
      (¬ ∃ l, pyGet (J.obj bvf) kRegion = J.arr l ∧ l.length = 6) →
      pyGet (J.obj bvf) kSphere = J.arr [J.num x, J.num y, J.num z, r] →
      derive_origin env t M =
        .ok ([((M.mulVec ![x, y, z, 1] 0 : ℚ) : ℝ), ((M.mulVec ![x, y, z, 1] 1 : ℚ) : ℝ),
              ((M.mulVec ![x, y, z, 1] 2 : ℚ) : ℝ)],
          ecefToLlaList ((M.mulVec ![x, y, z, 1] 0 : ℚ) : ℝ)
            ((M.mulVec ![x, y, z, 1] 1 : ℚ) : ℝ) ((M.mulVec ![x, y, z, 1] 2 : ℚ) : ℝ),
          tagSphere)) ∧
    (∀ (env : Env) (t : J) (M : Mat4) (bvf : List (String × J)) (x y z : ℚ)
        (r3 r4 r5 r6 r7 r8 r9 r10 r11 : J),
      pyGet t kBoundingVolume = J.obj bvf →
      (¬ ∃ l, pyGet (J.obj bvf) kRegion = J.arr l ∧ l.length = 6) →
      (¬ ∃ l, pyGet (J.obj bvf) kSphere = J.arr l ∧ l.length = 4) →
      pyGet (J.obj bvf) kBox =
        J.arr [J.num x, J.num y, J.num z, r3, r4, r5, r6, r7, r8, r9, r10, r11] →
      derive_origin env t M =
        .ok ([((M.mulVec ![x, y, z, 1] 0 : ℚ) : ℝ), ((M.mulVec ![x, y, z, 1] 1 : ℚ) : ℝ),
              ((M.mulVec ![x, y, z, 1] 2 : ℚ) : ℝ)],
          ecefToLlaList ((M.mulVec ![x, y, z, 1] 0 : ℚ) : ℝ)
            ((M.mulVec ![x, y, z, 1] 1 : ℚ) : ℝ) ((M.mulVec ![x, y, z, 1] 2 : ℚ) : ℝ),
          tagBox)) ∧
    (∀ (env : Env) (t : J) (M : Mat4),
      ((pyGet t kBoundingVolume).isObj = false ∨
        (regionCase env.parseFloat (pyGet t kBoundingVolume) = none ∧
         sphereCase env.parseFloat (pyGet t kBoundingVolume) M = none ∧
         boxCase env.parseFloat (pyGet t kBoundingVolume) M = none)) →
      derive_origin env t M = .ok (rootFallback M)) := by
  refine ⟨?_, ?_, ?_, ?_⟩
  · intro env t M bvf w s e n h0 h1 hbv hreg
    have hrc : regionCase env.parseFloat (J.obj bvf) =
        some (.ok (llaToEcefList (degrees (((s : ℝ) + (n : ℝ)) * 0.5))
            (degrees (((w : ℝ) + (e : ℝ)) * 0.5)) ((h0 : ℝ)),
          [degrees (((s : ℝ) + (n : ℝ)) * 0.5), degrees (((w : ℝ) + (e : ℝ)) * 0.5),
            ((h0 : ℝ))], tagRegion)) := by
      unfold regionCase
      rw [hreg]
      rfl
    unfold derive_origin
    rw [hbv, if_pos (show (J.obj bvf).isObj = true from rfl), hrc]
  · intro env t M bvf x y z r hbv hnr hsph
    have hsc : sphereCase env.parseFloat (J.obj bvf) M =
        some (.ok ([((M.mulVec ![x, y, z, 1] 0 : ℚ) : ℝ),
              ((M.mulVec ![x, y, z, 1] 1 : ℚ) : ℝ), ((M.mulVec ![x, y, z, 1] 2 : ℚ) : ℝ)],
          ecefToLlaList ((M.mulVec ![x, y, z, 1] 0 : ℚ) : ℝ)
            ((M.mulVec ![x, y, z, 1] 1 : ℚ) : ℝ) ((M.mulVec ![x, y, z, 1] 2 : ℚ) : ℝ),
          tagSphere)) := by
      unfold sphereCase
      rw [hsph]
      rfl
    unfold derive_origin
    rw [hbv, if_pos (show (J.obj bvf).isObj = true from rfl),
      regionCase_none env.parseFloat _ hnr, hsc]
  · intro env t M bvf x y z r3 r4 r5 r6 r7 r8 r9 r10 r11 hbv hnr hns hbox
    have hbc : boxCase env.parseFloat (J.obj bvf) M =
        some (.ok ([((M.mulVec ![x, y, z, 1] 0 : ℚ) : ℝ),
              ((M.mulVec ![x, y, z, 1] 1 : ℚ) : ℝ), ((M.mulVec ![x, y, z, 1] 2 : ℚ) : ℝ)],
          ecefToLlaList ((M.mulVec ![x, y, z, 1] 0 : ℚ) : ℝ)
            ((M.mulVec ![x, y, z, 1] 1 : ℚ) : ℝ) ((M.mulVec ![x, y, z, 1] 2 : ℚ) : ℝ),
          tagBox)) := by
      unfold boxCase
      rw [hbox]
      rfl
    unfold derive_origin
    rw [hbv, if_pos (show (J.obj bvf).isObj = true from rfl),
      regionCase_none env.parseFloat _ hnr, sphereCase_none env.parseFloat _ M hns, hbc]
  · intro env t M h
    unfold derive_origin
    rcases h with h | ⟨h1, h2, h3⟩
    · rw [if_neg (by simp [h])]
    · by_cases hobj : (pyGet t kBoundingVolume).isObj = true
      · rw [if_pos hobj, h1, h2, h3]
      · rw [if_neg hobj]

/-- C10 (amended): a bounding volume that is absent or not an object, or
an object whose region/sphere/box entries are absent or are not lists of
exactly 6, 4 and 12 elements respectively, falls through to the fallback:
the translation component of the root's absolute transform with strategy
tag "root".  (A list of the right length whose ELEMENTS are not coercible
raises instead — see the counterexample.) -/
theorem c10_malformed_bounding_volume (env : Env) (t : J) (M : Mat4)
    (h : (pyGet t kBoundingVolume).isObj = false ∨
      ((¬ ∃ l, pyGet (pyGet t kBoundingVolume) kRegion = J.arr l ∧ l.length = 6) ∧
       (¬ ∃ l, pyGet (pyGet t kBoundingVolume) kSphere = J.arr l ∧ l.length = 4) ∧
       (¬ ∃ l, pyGet (pyGet t kBoundingVolume) kBox = J.arr l ∧ l.length = 12))) :
    derive_origin env t M = .ok (rootFallback M) := by
  unfold derive_origin
  rcases h with h | ⟨h1, h2, h3⟩
  · rw [if_neg (by simp [h])]
  · by_cases hobj : (pyGet t kBoundingVolume).isObj = true
    · rw [if_pos hobj, regionCase_none env.parseFloat _ h1,
        sphereCase_none env.parseFloat _ M h2, boxCase_none env.parseFloat _ M h3]
    · rw [if_neg hobj]

/-- A root tile whose region is a 6-element list of nulls. -/
def tNullRegion : J :=
  J.obj [(kBoundingVolume,
    J.obj [(kRegion, J.arr [J.null, J.null, J.null, J.null, J.null, J.null])])]

/-- Counterexample for C10 as stated: a region entry that IS a 6-element
list but of non-coercible (null) values makes `_derive_origin` raise (the
`float(v)` coercion fails) instead of being treated as absent. -/
theorem c10_counterexample :
    derive_origin env0 tNullRegion 1 = .error .badFloat := rfl

/-- A root tile with malformed (wrong-shape) bounding-volume entries. -/
def tMalformed : J :=
  J.obj [(kBoundingVolume,
    J.obj [(kRegion, J.num 3), (kSphere, J.arr [J.num 1]), (kBox, J.str sAJson)])]

/-- Witness for C10's amended theorem at a concrete input. -/
theorem c10_malformed_bounding_volume_witness :
    ((pyGet tMalformed kBoundingVolume).isObj = false ∨
      ((¬ ∃ l, pyGet (pyGet tMalformed kBoundingVolume) kRegion = J.arr l ∧ l.length = 6) ∧
       (¬ ∃ l, pyGet (pyGet tMalformed kBoundingVolume) kSphere = J.arr l ∧ l.length = 4) ∧
       (¬ ∃ l, pyGet (pyGet tMalformed kBoundingVolume) kBox = J.arr l ∧ l.length = 12))) ∧
    derive_origin env0 tMalformed 1 = .ok (rootFallback 1) := by
  have h : (pyGet tMalformed kBoundingVolume).isObj = false ∨
      ((¬ ∃ l, pyGet (pyGet tMalformed kBoundingVolume) kRegion = J.arr l ∧ l.length = 6) ∧
       (¬ ∃ l, pyGet (pyGet tMalformed kBoundingVolume) kSphere = J.arr l ∧ l.length = 4) ∧
       (¬ ∃ l, pyGet (pyGet tMalformed kBoundingVolume) kBox = J.arr l ∧ l.length = 12)) := by
    refine Or.inr ⟨?_, ?_, ?_⟩
    · rintro ⟨l, hl, hlen⟩
      have hl2 : J.num 3 = J.arr l := hl
      cases hl2
    · rintro ⟨l, hl, hlen⟩
      have hl2 : J.arr [J.num 1] = J.arr l := hl
      injection hl2 with hl3
      rw [← hl3] at hlen
      simp at hlen
    · rintro ⟨l, hl, hlen⟩
      have hl2 : J.str sAJson = J.arr l := hl
      cases hl2
  exact ⟨h, c10_malformed_bounding_volume env0 tMalformed 1 h⟩

/-- A root tile carrying both a region and a sphere (the region wins). -/
def tRegion : J :=
  J.obj [(kBoundingVolume, J.obj
    [(kRegion, J.arr [J.num (-1), J.num (-1/2), J.num 1, J.num (1/2), J.num 10, J.num 50]),
     (kSphere, J.arr [J.num 0, J.num 0, J.num 0, J.num 5])])]

def tSphere : J :=
  J.obj [(kBoundingVolume, J.obj [(kSphere, J.arr [J.num 1, J.num 2, J.num 3, J.num 5])])]

def tBox : J :=
  J.obj [(kBoundingVolume, J.obj
    [(kBox, J.arr [J.num 1, J.num 2, J.num 3, J.num 0, J.num 0, J.num 0, J.num 0,
      J.num 0, J.num 0, J.num 0, J.num 0, J.num 0])])]

/-- Witness for C5 at concrete inputs, one per priority case; the region
case exercises a root tile that also carries a sphere. -/
theorem c5_origin_priority_witness :
    (pyGet tRegion kBoundingVolume =
        J.obj [(kRegion, J.arr [J.num (-1), J.num (-1/2), J.num 1, J.num (1/2),
            J.num 10, J.num 50]),
          (kSphere, J.arr [J.num 0, J.num 0, J.num 0, J.num 5])] ∧
      derive_origin env0 tRegion 1 =
        .ok (llaToEcefList (degrees ((((-1/2 : ℚ) : ℝ) + ((1/2 : ℚ) : ℝ)) * 0.5))
              (degrees ((((-1 : ℚ) : ℝ) + ((1 : ℚ) : ℝ)) * 0.5)) (((10 : ℚ) : ℝ)),
          [degrees ((((-1/2 : ℚ) : ℝ) + ((1/2 : ℚ) : ℝ)) * 0.5),
            degrees ((((-1 : ℚ) : ℝ) + ((1 : ℚ) : ℝ)) * 0.5), ((10 : ℚ) : ℝ)],
          tagRegion)) ∧
    derive_origin env0 tSphere 1 =
      .ok ([(((1 : Mat4).mulVec ![1, 2, 3, 1] 0 : ℚ) : ℝ),
            (((1 : Mat4).mulVec ![1, 2, 3, 1] 1 : ℚ) : ℝ),
            (((1 : Mat4).mulVec ![1, 2, 3, 1] 2 : ℚ) : ℝ)],
        ecefToLlaList (((1 : Mat4).mulVec ![1, 2, 3, 1] 0 : ℚ) : ℝ)
          (((1 : Mat4).mulVec ![1, 2, 3, 1] 1 : ℚ) : ℝ)
          (((1 : Mat4).mulVec ![1, 2, 3, 1] 2 : ℚ) : ℝ), tagSphere) ∧
    derive_origin env0 tBox 1 =
      .ok ([(((1 : Mat4).mulVec ![1, 2, 3, 1] 0 : ℚ) : ℝ),
            (((1 : Mat4).mulVec ![1, 2, 3, 1] 1 : ℚ) : ℝ),
            (((1 : Mat4).mulVec ![1, 2, 3, 1] 2 : ℚ) : ℝ)],
        ecefToLlaList (((1 : Mat4).mulVec ![1, 2, 3, 1] 0 : ℚ) : ℝ)
          (((1 : Mat4).mulVec ![1, 2, 3, 1] 1 : ℚ) : ℝ)
          (((1 : Mat4).mulVec ![1, 2, 3, 1] 2 : ℚ) : ℝ), tagBox) ∧
    derive_origin env0 (J.obj []) 1 = .ok (rootFallback 1) := by
  have hnr : ¬ ∃ l, pyGet (J.obj [(kSphere, J.arr [J.num 1, J.num 2, J.num 3, J.num 5])])
      kRegion = J.arr l ∧ l.length = 6 := by
    rintro ⟨l, hl, hlen⟩
    have hl2 : J.null = J.arr l := hl
    cases hl2
  have hnrB : ¬ ∃ l, pyGet (J.obj [(kBox, J.arr [J.num 1, J.num 2, J.num 3, J.num 0,
      J.num 0, J.num 0, J.num 0, J.num 0, J.num 0, J.num 0, J.num 0, J.num 0])])
      kRegion = J.arr l ∧ l.length = 6 := by
    rintro ⟨l, hl, hlen⟩
    have hl2 : J.null = J.arr l := hl
    cases hl2
  have hnsB : ¬ ∃ l, pyGet (J.obj [(kBox, J.arr [J.num 1, J.num 2, J.num 3, J.num 0,
      J.num 0, J.num 0, J.num 0, J.num 0, J.num 0, J.num 0, J.num 0, J.num 0])])
      kSphere = J.arr l ∧ l.length = 4 := by
    rintro ⟨l, hl, hlen⟩
    have hl2 : J.null = J.arr l := hl
    cases hl2
  refine ⟨⟨rfl, ?_⟩, ?_, ?_, ?_⟩
  · exact c5_origin_priority.1 env0 tRegion 1 _ (-1) (-1/2) 1 (1/2) 10 50 rfl rfl
  · exact c5_origin_priority.2.1 env0 tSphere 1 _ 1 2 3 (J.num 5) rfl hnr rfl
  · exact c5_origin_priority.2.2.1 env0 tBox 1 _ 1 2 3 (J.num 0) (J.num 0) (J.num 0)
      (J.num 0) (J.num 0) (J.num 0) (J.num 0) (J.num 0) (J.num 0) rfl hnrB hnsB rfl
  · exact c5_origin_priority.2.2.2 env0 (J.obj []) 1 (Or.inl rfl)



lemma atan2_pos_zero (y : ℝ) (hy : 0 < y) : atan2 y 0 = Real.pi / 2 := by
  unfold atan2
  have h1 : ¬ ((0:ℝ) < 0) := lt_irrefl 0
  have h2 : ¬ ((0:ℝ) < 0 ∧ 0 ≤ y) := fun h => h1 h.1
  have h3 : ¬ ((0:ℝ) < 0 ∧ y < 0) := fun h => h1 h.1
  rw [if_neg h1, if_neg h2, if_neg h3, if_pos ⟨rfl, hy⟩]

lemma hypot_zero : hypot 0 0 = 0 := by
  unfold hypot
  norm_num [Real.sqrt_zero]

lemma ecef_polar_radians (z : ℝ) (hz : 0 < z) :
    (ecef_to_lla_radians 0 0 z).1 = Real.pi / 2 ∧
    (ecef_to_lla_radians 0 0 z).2.1 = 0 := by
  have hA : (0:ℝ) < z * 6378137.0 := by positivity
  simp only [ecef_to_lla_radians, hypot_zero]
  constructor
  · rw [zero_mul, atan2_pos_zero _ hA, Real.sin_pi_div_two, Real.cos_pi_div_two,
      one_pow, mul_one, zero_pow three_ne_zero, mul_zero, sub_zero]
    apply atan2_pos_zero
    positivity
  · simp

/-- C8: for z > 0, `ecef_to_lla_degrees 0 0 z` returns latitude +90 and
longitude 0: the `p = 0` polar-axis guard fixes the longitude at 0, and
for z > 0 the reduced latitude and the latitude both evaluate to pi/2 with
no failing operation (every division in the real-valued model is total and
the arctangent branches are the guarded ones). -/
theorem c8_polar_axis (z : ℝ) (hz : 0 < z) :
    (ecef_to_lla_degrees 0 0 z).1 = 90 ∧ (ecef_to_lla_degrees 0 0 z).2.1 = 0 := by
  obtain ⟨hlat, hlon⟩ := ecef_polar_radians z hz
  constructor
  · show degrees (ecef_to_lla_radians 0 0 z).1 = 90
    rw [hlat]
    unfold degrees
    field_simp
    ring
  · show degrees (ecef_to_lla_radians 0 0 z).2.1 = 0
    rw [hlon]
    unfold degrees
    rw [zero_mul]

/-- Witness for C8 at z = 1. -/
theorem c8_polar_axis_witness :
    (0 : ℝ) < 1 ∧ (ecef_to_lla_degrees 0 0 1).1 = 90 ∧
      (ecef_to_lla_degrees 0 0 1).2.1 = 0 :=
  ⟨one_pos, c8_polar_axis 1 one_pos⟩


end T3
